import Mathlib

/-!
Shallow embedding of the battle core of the `atamne` repository:
`src/js/config.js`, the `GameCharacter` class (`src/unnamed/part_000`),
`src/js/battlesystem.js` and `src/js/battleai.js`, together with theorems
about the embedded operations.

Modelling conventions:
* JavaScript numbers are modelled as exact rationals (`ℚ`);
* a JavaScript object reference into a team array is modelled as the pair
  of the team side and the array index (team members are mutated in place
  and never reassigned to a different slot, so a slot is a faithful model
  of a reference);
* the `actionBars` object (string keys to numbers) is modelled as an
  association list keyed by `getCharId`;
* the unbounded `while` loop of `calculateUpcomingTurns` is modelled with
  an explicit fuel argument bounding the number of simulated ticks.
-/

/-- One of the six gene types of `config.js` (`GENES`). -/
inductive Gene
  | red | orange | yellow | green | blue | purple
deriving DecidableEq, Repr

/-- An attack gene: one of the six genes, or the sentinel string `'Neutral'`
used by `getAttackGenes` / `getEffectiveness` in `part_000`. -/
inductive AttackGene
  | neutral
  | typed (g : Gene)
deriving DecidableEq, Repr

/-- The `TYPE_EFFECTIVENESS` table of `config.js` (lines 50-57): the
attacking gene's row maps a defending gene to a multiplier; a pair missing
from the table is `none` (the JavaScript lookup `[a]?.[d] || 1.0` then
falls back to `1.0`). -/
def TYPE_EFFECTIVENESS : Gene → Gene → Option ℚ
  | .red, .orange => some (3/2)
  | .red, .yellow => some (5/4)
  | .red, .purple => some (1/2)
  | .red, .blue => some (3/4)
  | .orange, .yellow => some (3/2)
  | .orange, .green => some (5/4)
  | .orange, .red => some (1/2)
  | .orange, .purple => some (3/4)
  | .yellow, .green => some (3/2)
  | .yellow, .blue => some (5/4)
  | .yellow, .orange => some (1/2)
  | .yellow, .red => some (3/4)
  | .green, .blue => some (3/2)
  | .green, .purple => some (5/4)
  | .green, .yellow => some (1/2)
  | .green, .orange => some (3/4)
  | .blue, .purple => some (3/2)
  | .blue, .red => some (5/4)
  | .blue, .green => some (1/2)
  | .blue, .yellow => some (3/4)
  | .purple, .red => some (3/2)
  | .purple, .orange => some (5/4)
  | .purple, .blue => some (1/2)
  | .purple, .green => some (3/4)
  | _, _ => none

/-- One step forward on the advantage wheel
Red→Orange→Yellow→Green→Blue→Purple→Red (comment above
`TYPE_EFFECTIVENESS` in `config.js`). Used only to state claims about the
wheel structure of the table. -/
def wheelNext : Gene → Gene
  | .red => .orange
  | .orange => .yellow
  | .yellow => .green
  | .green => .blue
  | .blue => .purple
  | .purple => .red

/-- The battle stats object of a `GameCharacter` (`generateStats` in
`part_000`): current hp, maxHp, attack and speed. -/
structure Stats where
  hp : ℚ
  maxHp : ℚ
  attack : ℚ
  speed : ℚ
deriving DecidableEq, Repr

/-- A `GameCharacter` (`part_000`): id, ordered gene list, unlock flag,
battle stats and the `isPlayer` team flag set during battle setup. The
presentational fields (`symbol`) are not modelled. -/
structure GameCharacter where
  id : String
  genes : List Gene
  unlocked : Bool
  stats : Stats
  isPlayer : Bool
deriving DecidableEq, Repr

/-- The `CHARACTER_STATS` table of `config.js` (lines 62-115):
`(combination key, hp, attack, speed)` for each of the 36 gene
combinations. -/
def CHARACTER_STATS : List (String × ℕ × ℕ × ℕ) :=
  [("Red", 120, 120, 40),
   ("Orange", 240, 80, 40),
   ("Yellow", 360, 40, 40),
   ("Green", 240, 40, 80),
   ("Blue", 120, 40, 120),
   ("Purple", 120, 80, 80),
   ("Red-Red", 144, 104, 48),
   ("Orange-Orange", 216, 72, 56),
   ("Yellow-Yellow", 312, 48, 48),
   ("Green-Green", 216, 56, 72),
   ("Blue-Blue", 144, 48, 104),
   ("Purple-Purple", 168, 72, 72),
   ("Red-Orange", 216, 88, 40),
   ("Red-Yellow", 300, 60, 40),
   ("Red-Green", 216, 56, 72),
   ("Red-Blue", 120, 60, 100),
   ("Red-Purple", 120, 88, 72),
   ("Orange-Red", 156, 108, 40),
   ("Orange-Yellow", 324, 52, 40),
   ("Orange-Green", 240, 48, 72),
   ("Orange-Blue", 156, 52, 96),
   ("Orange-Purple", 144, 80, 72),
   ("Yellow-Red", 180, 100, 40),
   ("Yellow-Orange", 264, 72, 40),
   ("Yellow-Green", 264, 40, 72),
   ("Yellow-Blue", 180, 40, 100),
   ("Yellow-Purple", 168, 72, 72),
   ("Green-Red", 156, 96, 52),
   ("Green-Orange", 240, 72, 48),
   ("Green-Yellow", 324, 40, 52),
   ("Green-Blue", 156, 40, 108),
   ("Green-Purple", 144, 72, 80),
   ("Blue-Red", 120, 100, 60),
   ("Blue-Orange", 216, 72, 56),
   ("Blue-Yellow", 300, 40, 60),
   ("Blue-Green", 216, 40, 88),
   ("Blue-Purple", 120, 72, 88),
   ("Purple-Red", 120, 108, 52),
   ("Purple-Orange", 216, 80, 48),
   ("Purple-Yellow", 288, 52, 52),
   ("Purple-Green", 216, 48, 80),
   ("Purple-Blue", 120, 52, 108)]

/-- The five effectiveness multipliers of the type chart
(0.5, 0.75, 1.0, 1.25, 1.5). -/
def effMultipliers : List ℚ := [1/2, 3/4, 1, 5/4, 3/2]

namespace GameCharacter

/-- Whether the character is alive: `isAlive` in `part_000`, `hp > 0`. -/
def isAlive (c : GameCharacter) : Bool := decide (0 < c.stats.hp)

/-- Current health percentage: `getHealthPercentage` in `part_000`,
`hp / maxHp * 100`. -/
def getHealthPercentage (c : GameCharacter) : ℚ := c.stats.hp / c.stats.maxHp * 100

/-- The character rarity classification of `getRarity` in `part_000`. -/
inductive Rarity
  | common | uncommon | rare
deriving DecidableEq, Repr

/-- Rarity from gene complexity: `getRarity` in `part_000`. -/
def getRarity (c : GameCharacter) : Rarity :=
  match c.genes with
  | [_] => .common
  | g1 :: g2 :: _ => if g1 = g2 then .uncommon else .rare
  | [] => .common

/-- Type effectiveness of an incoming attack against this character:
`getEffectiveness` in `part_000`. `'Neutral'` always yields `1.0`;
otherwise only the defender's FIRST gene is consulted in the
`TYPE_EFFECTIVENESS` table, defaulting to `1.0` for pairs the table does
not list. (`defender.genes[0]` on an empty gene list would be `undefined`
in JavaScript and the lookup would also fall back to `1.0`.) -/
def getEffectiveness (attackGene : AttackGene) (defender : GameCharacter) : ℚ :=
  match attackGene with
  | .neutral => 1
  | .typed g =>
    match defender.genes with
    | [] => 1
    | d :: _ => (TYPE_EFFECTIVENESS g d).getD 1

/-- Damage this character deals with an attack gene against a defender:
`calculateDamage` in `part_000`, `attack × effectiveness`. -/
def calculateDamage (attacker : GameCharacter) (attackGene : AttackGene)
    (defender : GameCharacter) : ℚ :=
  attacker.stats.attack * getEffectiveness attackGene defender

/-- Apply damage: `takeDamage` in `part_000`. Sets
`hp := max(0, hp − damage)` and returns the updated character together
with the defeated flag (`hp === 0` after the update). -/
def takeDamage (c : GameCharacter) (damage : ℚ) : GameCharacter × Bool :=
  let hp' := max 0 (c.stats.hp - damage)
  ({ c with stats := { c.stats with hp := hp' } }, decide (hp' = 0))

/-- Reset to full health for a new battle: `resetForBattle` in `part_000`. -/
def resetForBattle (c : GameCharacter) : GameCharacter :=
  { c with stats := { c.stats with hp := c.stats.maxHp } }

/-- Shape of an attack: single target or splash (the `type` string of the
attack objects built by `getAttackGenes`). -/
inductive AttackType
  | single | splash
deriving DecidableEq, Repr

/-- An attack option `{gene, type}` as produced by `getAttackGenes`. -/
structure AttackObj where
  gene : AttackGene
  type : AttackType
deriving DecidableEq, Repr

/-- The two attack options of a character: `getAttackGenes` in `part_000`.
One gene: that gene plus a neutral attack; two identical genes: single
plus splash of that gene; two distinct genes: both as single attacks.
(Characters always carry one or two genes; the empty case is
unreachable.) -/
def getAttackGenes (c : GameCharacter) : List AttackObj :=
  match c.genes with
  | [g] => [⟨.typed g, .single⟩, ⟨.neutral, .single⟩]
  | g1 :: g2 :: _ =>
    if g1 = g2 then [⟨.typed g1, .single⟩, ⟨.typed g1, .splash⟩]
    else [⟨.typed g1, .single⟩, ⟨.typed g2, .single⟩]
  | [] => []

end GameCharacter

export GameCharacter (AttackType AttackObj)

/-- Result record of a single attack (`processSingleAttack` in
`battlesystem.js`). Display names are modelled by the raw id. -/
structure SingleAttackResult where
  attacker : String
  attackGene : AttackGene
  target : String
  damage : ℚ
  effectiveness : ℚ
  targetDefeated : Bool
deriving DecidableEq, Repr

/-- Single-target attack resolution (`processSingleAttack` in
`battlesystem.js`, lines 334-355) acting on the target character: computes
damage and effectiveness, applies `takeDamage`, and returns the result
record together with the updated target. (The `updateTurnQueue` call on
defeat lives in the battle-state level wrapper below.) -/
def processSingleAttack (attacker : GameCharacter) (attackGene : AttackGene)
    (target : GameCharacter) : SingleAttackResult × GameCharacter :=
  let finalDamage := attacker.calculateDamage attackGene target
  let effectiveness := GameCharacter.getEffectiveness attackGene target
  let r := target.takeDamage finalDamage
  (⟨attacker.id, attackGene, target.id, finalDamage, effectiveness, r.2⟩, r.1)

/-! ## Battle state and the turn scheduler (`battlesystem.js`) -/

/-- Battle phase of `BattleSystem.battlePhase`: `'setup'`, `'battle'`,
`'ended'`. -/
inductive BattlePhase
  | setup | battle | ended
deriving DecidableEq, Repr

/-- Key of an `actionBars` entry: `getCharId` builds the string
`` `${id}-${isPlayer ? 'P' : 'E'}` ``, modelled as the id paired with the
flag. -/
abbrev CharKey := String × Bool

/-- A reference to a combatant object: the team side (`true` = player
team) together with the index in that team's array. -/
abbrev CharRef := Bool × Nat

/-- The battle-relevant mutable fields of the `BattleSystem` class. The
presentational fields (`battleLog`, `attackButtonsDisabled`,
`selectedAttackObj`, the timer handles) are not modelled. -/
structure BattleState where
  playerTeam : List GameCharacter
  enemyTeam : List GameCharacter
  upcomingTurns : List CharRef
  turnQueue : List CharRef
  actionBars : List (CharKey × ℚ)
  battlePhase : BattlePhase
  isProcessingTurn : Bool
  turnHistory : List CharRef
deriving DecidableEq, Repr

/-- The `getCharId` key of a character. -/
def getCharId (c : GameCharacter) : CharKey := (c.id, c.isPlayer)

/-- The team list on one side of a state. -/
def teamOf (s : BattleState) (side : Bool) : List GameCharacter :=
  if side then s.playerTeam else s.enemyTeam

/-- Replace the team list on one side. -/
def setTeam (s : BattleState) (side : Bool) (t : List GameCharacter) : BattleState :=
  if side then { s with playerTeam := t } else { s with enemyTeam := t }

/-- Dereference a combatant reference. -/
def deref (s : BattleState) (r : CharRef) : Option GameCharacter :=
  (teamOf s r.1).get? r.2

/-- Lookup in the action-bar association list (a JavaScript object access
`bars[key]`, `none` standing for `undefined`). -/
def barsGet : List (CharKey × ℚ) → CharKey → Option ℚ
  | [], _ => none
  | p :: rest, k => if p.1 = k then some p.2 else barsGet rest k

/-- Add `d` to the entry of `k` when present (`bars[key] += d` guarded by
the `!== undefined` check in `calculateUpcomingTurns`; consumption and
`nextTurn` only ever subtract from keys that are present). -/
def barsIncr (bars : List (CharKey × ℚ)) (k : CharKey) (d : ℚ) : List (CharKey × ℚ) :=
  bars.map (fun p => if p.1 = k then (p.1, p.2 + d) else p)

/-- A combatant as seen by the scheduler simulation: the character value
together with its reference (the array slot `indexOf` would recover). -/
structure SimChar where
  ref : CharRef
  char : GameCharacter
deriving DecidableEq, Repr

/-- The `allCharacters` list of `createTurnQueue` /
`calculateUpcomingTurns`: the player team followed by the enemy team,
keeping only the alive members, each paired with its slot. -/
def aliveEntries (pt et : List GameCharacter) : List SimChar :=
  ((pt.enum.map fun p => SimChar.mk (true, p.1) p.2)
      ++ (et.enum.map fun p => SimChar.mk (false, p.1) p.2)).filter
    (fun sc => sc.char.isAlive)

/-- The `BATTLE_CONFIG.ACTION_THRESHOLD` constant of `config.js`. -/
def ACTION_THRESHOLD : ℚ := 1000

/-- The `BATTLE_CONFIG.SPLASH_DAMAGE_MULTIPLIER` constant of `config.js`. -/
def SPLASH_DAMAGE_MULTIPLIER : ℚ := 1/2

/-- The tie-breaking comparator of `calculateUpcomingTurns`
(`readyChars.sort`, `battlesystem.js` lines 183-208): negative means `a`
acts before `b`. Keys in order: higher action-bar value, lower base
speed, player side first, then the slot index in the own team's array
(`indexOf`). A missing action-bar entry reads as 0 (the comparator is
only ever applied to ready characters, whose entries are present). -/
def turnCmp (bars : List (CharKey × ℚ)) (a b : SimChar) : ℚ :=
  let aBar := (barsGet bars (getCharId a.char)).getD 0
  let bBar := (barsGet bars (getCharId b.char)).getD 0
  if aBar ≠ bBar then bBar - aBar
  else if a.char.stats.speed ≠ b.char.stats.speed then
    a.char.stats.speed - b.char.stats.speed
  else if a.char.isPlayer ≠ b.char.isPlayer then
    (if a.char.isPlayer then -1 else 1)
  else (a.ref.2 : ℚ) - (b.ref.2 : ℚ)

/-- Fold an increment over a list of combatants' bar entries. -/
def foldIncr (f : SimChar → ℚ) (chars : List SimChar)
    (bars : List (CharKey × ℚ)) : List (CharKey × ℚ) :=
  chars.foldl (fun b c => barsIncr b (getCharId c.char) (f c)) bars

/-- Step 1 of a simulated tick: add each living combatant's speed to its
action bar. -/
def tickIncr (chars : List SimChar) (bars : List (CharKey × ℚ)) : List (CharKey × ℚ) :=
  foldIncr (fun c => c.char.stats.speed) chars bars

/-- Whether a combatant's action bar has reached the threshold
(`simActionBars[charId] >= BATTLE_CONFIG.ACTION_THRESHOLD`; an
`undefined` entry compares as not ready). -/
def isReady (bars : List (CharKey × ℚ)) (c : SimChar) : Bool :=
  match barsGet bars (getCharId c.char) with
  | some v => decide (ACTION_THRESHOLD ≤ v)
  | none => false

/-- Step 2 of a tick: the combatants that reached the threshold. -/
def readyOf (chars : List SimChar) (bars : List (CharKey × ℚ)) : List SimChar :=
  chars.filter (isReady bars)

/-- Step 3 of a tick: sort the ready combatants by the tie-breaking
comparator (`readyChars.sort`). -/
def sortReady (bars : List (CharKey × ℚ)) (l : List SimChar) : List SimChar :=
  List.insertionSort (fun a b => turnCmp bars a b ≤ 0) l

/-- One simulated tick of `calculateUpcomingTurns`: increment all bars by
speed, collect and sort the ready combatants, then subtract exactly one
threshold from each ready combatant's bar. Returns the new bars and the
turns produced this tick, in order. -/
def tick (chars : List SimChar) (bars : List (CharKey × ℚ)) :
    List (CharKey × ℚ) × List SimChar :=
  let bars1 := tickIncr chars bars
  let sorted := sortReady bars1 (readyOf chars bars1)
  (foldIncr (fun _ => -ACTION_THRESHOLD) sorted bars1, sorted)

/-- The `while (turns.length < numberOfTurns)` loop of
`calculateUpcomingTurns`, bounded by an explicit fuel counting simulated
ticks. Returns the accumulated turns and the final simulated bars. -/
def calcTurnsAux : ℕ → ℕ → List SimChar → List (CharKey × ℚ) → List SimChar →
    List SimChar × List (CharKey × ℚ)
  | 0, _, _, bars, acc => (acc, bars)
  | fuel + 1, n, chars, bars, acc =>
    if acc.length < n then
      let t := tick chars bars
      calcTurnsAux fuel n chars t.1 (acc ++ t.2)
    else (acc, bars)

/-- The `calculateUpcomingTurns(numberOfTurns)` method of `battlesystem.js` (lines
153-220): simulate ticks from a copy of the current action bars until at
least `n` turns are produced (or fuel runs out), over the currently-alive
characters. The real method stores the result in `this.upcomingTurns`;
here the turn list (as references) is returned. -/
def calculateUpcomingTurns (fuel n : ℕ) (pt et : List GameCharacter)
    (bars : List (CharKey × ℚ)) : List CharRef :=
  let chars := aliveEntries pt et
  if chars.isEmpty then [] else ((calcTurnsAux fuel n chars bars []).1.map (·.ref))

/-- The `getCurrentCharacter` method: the front of `upcomingTurns`, dereferenced. -/
def getCurrentCharacter (s : BattleState) : Option (CharRef × GameCharacter) :=
  match s.upcomingTurns with
  | [] => none
  | r :: _ => (deref s r).map (fun c => (r, c))

/-- The `nextTurn` method of `battlesystem.js` (lines 234-259): subtract exactly one
threshold from the acting character's real action bar, move the front of
`upcomingTurns` to the history, recompute the buffer when fewer than 20
turns remain, and refresh the display queue. (The method's
`{nextCharacter, turnQueue}` return value is `getCurrentCharacter` and
`turnQueue` of the returned state.) -/
def nextTurn (fuel : ℕ) (s : BattleState) : BattleState :=
  match getCurrentCharacter s with
  | none => s
  | some (r, c) =>
    let bars' := barsIncr s.actionBars (getCharId c) (-ACTION_THRESHOLD)
    let ut := s.upcomingTurns.tail
    let s1 := { s with actionBars := bars', upcomingTurns := ut,
                       turnHistory := s.turnHistory ++ [r] }
    let s2 :=
      if ut.length < 20 then
        { s1 with upcomingTurns :=
            calculateUpcomingTurns fuel 20 s1.playerTeam s1.enemyTeam s1.actionBars }
      else s1
    { s2 with turnQueue := s2.upcomingTurns.take 6 }

/-- The `updateTurnQueue` method of `battlesystem.js` (lines 264-277): delete the
action-bar entries of defeated characters, recompute the upcoming turns
from the remaining bars, refresh the display queue. -/
def updateTurnQueue (fuel : ℕ) (s : BattleState) : BattleState :=
  let deadKeys := ((s.playerTeam ++ s.enemyTeam).filter
      (fun c => !c.isAlive)).map getCharId
  let bars' := s.actionBars.filter (fun p => !(deadKeys.contains p.1))
  let ut := calculateUpcomingTurns fuel 20 s.playerTeam s.enemyTeam bars'
  { s with actionBars := bars', upcomingTurns := ut, turnQueue := ut.take 6 }

/-- The `checkBattleEnd` method of `battlesystem.js` (lines 399-413): the battle is
ended exactly when a team has no living member; the winner is `'player'`
(`some true`) when the player team still has one, else `'enemy'`
(`some false`). Sets the phase to `'ended'` on that branch. -/
def checkBattleEnd (s : BattleState) : (Bool × Option Bool) × BattleState :=
  let playerAlive := s.playerTeam.any (·.isAlive)
  let enemyAlive := s.enemyTeam.any (·.isAlive)
  if !playerAlive || !enemyAlive then
    ((true, some playerAlive), { s with battlePhase := .ended })
  else ((false, none), s)

/-- One hit line of a splash result (`results.targets` entries in
`processSplashAttack`). -/
structure SplashTargetResult where
  name : String
  damage : ℚ
  effectiveness : ℚ
  defeated : Bool
deriving DecidableEq, Repr

/-- Result record of a splash attack. -/
structure SplashResult where
  attacker : String
  attackGene : AttackGene
  targets : List SplashTargetResult
deriving DecidableEq, Repr

/-- The damage loop of `processSplashAttack`: the targets are
`team.filter(isAlive).slice(0, k)` and each is mutated in place by
`takeDamage(singleDamage × SPLASH_DAMAGE_MULTIPLIER)`. Walking the team
in order with a countdown `k` damages exactly the first `k` living
members — the same references the filter-and-slice selects — and leaves
every other slot untouched. Returns the updated team and the result
lines in target order. -/
def splashHits (attacker : GameCharacter) (g : AttackGene) :
    ℕ → List GameCharacter → List GameCharacter × List SplashTargetResult
  | _, [] => ([], [])
  | k, c :: rest =>
    if c.isAlive = true ∧ 0 < k then
      let singleDamage := attacker.calculateDamage g c
      let splashDamage := singleDamage * SPLASH_DAMAGE_MULTIPLIER
      let effectiveness := GameCharacter.getEffectiveness g c
      let r := c.takeDamage splashDamage
      let w := splashHits attacker g (k - 1) rest
      (r.1 :: w.1, ⟨c.id, splashDamage, effectiveness, r.2⟩ :: w.2)
    else
      let w := splashHits attacker g k rest
      (c :: w.1, w.2)

/-- The `processSplashAttack` method of `battlesystem.js` (lines 363-393): hit up to
3 living members of the team OPPOSITE the attacker (`slice(0, 3)`), each
for `singleDamage × 0.5`, then notify the scheduler once
(`updateTurnQueue`). -/
def processSplashAttackS (fuel : ℕ) (s : BattleState) (attacker : GameCharacter)
    (g : AttackGene) : SplashResult × BattleState :=
  let side := !attacker.isPlayer
  let w := splashHits attacker g 3 (teamOf s side)
  let s1 := setTeam s side w.1
  (⟨attacker.id, g, w.2⟩, updateTurnQueue fuel s1)

/-- The `processSingleAttack` method of `battlesystem.js` at the battle-state level:
resolve the attack against the referenced target and, when the target was
defeated, notify the scheduler (`updateTurnQueue`). (A reference outside
any team would crash in JavaScript — the caller always passes a team
member; modelled as a no-damage result.) -/
def processSingleAttackS (fuel : ℕ) (s : BattleState) (attacker : GameCharacter)
    (g : AttackGene) (tref : CharRef) : SingleAttackResult × BattleState :=
  match deref s tref with
  | none => (⟨attacker.id, g, "", 0, 1, false⟩, s)
  | some target =>
    let r := processSingleAttack attacker g target
    let s1 := setTeam s tref.1 ((teamOf s tref.1).set tref.2 r.2)
    (r.1, if r.1.targetDefeated then updateTurnQueue fuel s1 else s1)

/-- The discriminated failure reasons of `processTurn`
(`'already_processing'`, `'invalid_attacker'`). -/
inductive TurnFailReason
  | alreadyProcessing | invalidAttacker
deriving DecidableEq, Repr

/-- The `turnResults` payload of a successful `processTurn`. -/
inductive TurnResultData
  | single (r : SingleAttackResult)
  | splash (r : SplashResult)
deriving DecidableEq, Repr

/-- The result object of `processTurn`: `success`, the failure `reason`
when unsuccessful, the attack results, `battleEnded` and the winner
(`some true` = player) when the battle ended. -/
structure TurnOutcome where
  success : Bool
  reason : Option TurnFailReason
  turnResults : Option TurnResultData
  battleEnded : Bool
  winner : Option Bool
deriving DecidableEq, Repr

/-- The `processTurn` method of `battlesystem.js` (lines 285-325): reject when a turn
is already being processed; reject when there is no current alive
attacker; otherwise resolve the splash or single attack, then check for
battle end. The `isProcessingTurn` flag is taken and released within the
call, so the returned state carries it as `false` on every path. -/
def processTurn (fuel : ℕ) (s : BattleState) (attackObj : AttackObj)
    (tref : CharRef) : TurnOutcome × BattleState :=
  if s.isProcessingTurn then
    (⟨false, some .alreadyProcessing, none, false, none⟩, s)
  else
    match getCurrentCharacter s with
    | none => (⟨false, some .invalidAttacker, none, false, none⟩, s)
    | some (_, attacker) =>
      if attacker.isAlive then
        let step : TurnResultData × BattleState :=
          match attackObj.type with
          | .splash =>
            let r := processSplashAttackS fuel s attacker attackObj.gene
            (.splash r.1, r.2)
          | .single =>
            let r := processSingleAttackS fuel s attacker attackObj.gene tref
            (.single r.1, r.2)
        let e := checkBattleEnd step.2
        (⟨true, none, some step.1, e.1.1, e.1.2⟩,
          { e.2 with isProcessingTurn := false })
      else (⟨false, some .invalidAttacker, none, false, none⟩, s)

/-- The return object of `setupBattle`. -/
structure SetupResult where
  playerTeam : List GameCharacter
  enemyTeam : List GameCharacter
  firstCharacter : Option GameCharacter
deriving DecidableEq, Repr

/-- The `setupBattle` method of `battlesystem.js` (lines 52-77): clone and reset the
supplied roster as the player team (any size — the method performs no
roster-size validation), build the enemy team, create the turn queue
(action bars reset to 0, 20 turns precomputed, display slice of 6), set
the phase to `'battle'` and reset the processing flags. `enemyChoice`
stands for the characters `generateEnemyTeam` randomly selects; its
per-character processing (clone, `resetForBattle`, `isPlayer := false`)
is embedded here. -/
def setupBattle (fuel : ℕ) (s : BattleState)
    (playerRoster enemyChoice : List GameCharacter) : SetupResult × BattleState :=
  let pt := playerRoster.map (fun c => { c.resetForBattle with isPlayer := true })
  let et := enemyChoice.map (fun c => { c.resetForBattle with isPlayer := false })
  let chars := aliveEntries pt et
  let bars := chars.map (fun c => (getCharId c.char, (0 : ℚ)))
  let ut := calculateUpcomingTurns fuel 20 pt et bars
  let s1 : BattleState :=
    { playerTeam := pt, enemyTeam := et, upcomingTurns := ut,
      turnQueue := ut.take 6, actionBars := bars, battlePhase := .battle,
      isProcessingTurn := false, turnHistory := s.turnHistory }
  let first := (getCurrentCharacter s1).map (·.2)
  (⟨pt, et, first⟩, s1)

/-! ## AI decision engine (`battleai.js`) -/

/-- An AI difficulty configuration (`AI_DIFFICULTY` in `config.js`): the
probability of choosing the heuristic-best move. The presentational
`name`/`description` strings are not modelled. -/
structure DifficultyConfig where
  smartMoveChance : ℚ
deriving DecidableEq, Repr

/-- The `AI_DIFFICULTY.EASY` tier (`smartMoveChance = 0`). -/
def AI_DIFFICULTY_EASY : DifficultyConfig := ⟨0⟩

/-- The `AI_DIFFICULTY.NORMAL` tier (`smartMoveChance = 0.5`). -/
def AI_DIFFICULTY_NORMAL : DifficultyConfig := ⟨1/2⟩

/-- The `AI_DIFFICULTY.HARD` tier (`smartMoveChance = 0.8`). -/
def AI_DIFFICULTY_HARD : DifficultyConfig := ⟨8/10⟩

/-- The `AI_DIFFICULTY.EXTREME` tier (`smartMoveChance = 1.0`). -/
def AI_DIFFICULTY_EXTREME : DifficultyConfig := ⟨1⟩

/-- The `calculateThreatLevel` method of `battleai.js` (lines 237-274): base threat
`0.3 × attack + 0.2 × speed`, `+50` when the target's attack exceeds the
average attack of all targets, `+30`/`−20` for health above 75% / below
25%, and a rarity term of 40/20/10 for rare/uncommon/common. (The average
divides by the target count; the claims only use it with a non-empty
target list.) -/
def calculateThreatLevel (target : GameCharacter)
    (allTargets : List GameCharacter) : ℚ :=
  let t1 := target.stats.attack * (3/10)
  let t2 := t1 + target.stats.speed * (2/10)
  let avgAttack :=
    ((allTargets.map (fun t => t.stats.attack)).sum) / (allTargets.length : ℚ)
  let t3 := if target.stats.attack > avgAttack then t2 + 50 else t2
  let healthPercentage := target.getHealthPercentage
  let t4 :=
    if healthPercentage > 75 then t3 + 30
    else if healthPercentage < 25 then t3 - 20
    else t3
  match target.getRarity with
  | .rare => t4 + 40
  | .uncommon => t4 + 20
  | .common => t4 + 10

/-- The evaluation record of `evaluateSingleAttack`. -/
structure SingleEval where
  score : ℚ
  damage : ℚ
  effectiveness : ℚ
  threatScore : ℚ
  willKill : Bool
deriving DecidableEq, Repr

/-- The `evaluateSingleAttack` method of `battleai.js` (lines 188-229): the score is
the damage, `+500` when the damage is lethal, `+100` when the target's hp
is at most 1.5× the attacker's attack, `+50×effectiveness` when
effectiveness ≥ 1.25 (else `−25` when ≤ 0.75), plus the threat score,
`+75` when the target is below 50% health and its attack exceeds 0.8× the
attacker's attack. -/
def evaluateSingleAttack (attacker : GameCharacter) (attackObj : AttackObj)
    (target : GameCharacter) (allTargets : List GameCharacter) : SingleEval :=
  let damage := attacker.calculateDamage attackObj.gene target
  let effectiveness := GameCharacter.getEffectiveness attackObj.gene target
  let s1 := damage
  let s2 := if damage ≥ target.stats.hp then s1 + 500 else s1
  let s3 := if target.stats.hp ≤ attacker.stats.attack * (3/2) then s2 + 100 else s2
  let s4 :=
    if effectiveness ≥ 5/4 then s3 + 50 * effectiveness
    else if effectiveness ≤ 3/4 then s3 - 25
    else s3
  let threatScore := calculateThreatLevel target allTargets
  let s5 := s4 + threatScore
  let healthPercentage := target.getHealthPercentage
  let s6 :=
    if healthPercentage < 50 ∧ target.stats.attack > attacker.stats.attack * (8/10)
    then s5 + 75 else s5
  ⟨s6, damage, effectiveness, threatScore, decide (damage ≥ target.stats.hp)⟩

/-- The evaluation record of `evaluateSplashAttack`. -/
structure SplashEval where
  score : ℚ
  totalDamage : ℚ
  killCount : ℕ
  effectivenessBonus : ℚ
deriving DecidableEq, Repr

/-- The `evaluateSplashAttack` method of `battleai.js` (lines 147-178): sum of the
halved per-target damages, `+200` per target the splash would defeat, and
`+50×effectiveness` for each target with effectiveness ≥ 1.25. -/
def evaluateSplashAttack (attacker : GameCharacter) (attackObj : AttackObj)
    (availableTargets : List GameCharacter) : SplashEval :=
  let acc := availableTargets.foldl
    (fun (acc : ℚ × ℕ × ℚ) target =>
      let effectiveness := GameCharacter.getEffectiveness attackObj.gene target
      let damage := (attacker.stats.attack * effectiveness) * SPLASH_DAMAGE_MULTIPLIER
      (acc.1 + damage,
       (if damage ≥ target.stats.hp then acc.2.1 + 1 else acc.2.1),
       (if effectiveness ≥ 5/4 then acc.2.2 + 50 * effectiveness else acc.2.2)))
    (0, 0, 0)
  ⟨acc.1 + (acc.2.1 : ℚ) * 200 + acc.2.2, acc.1, acc.2.1, acc.2.2⟩

/-- A `{attack, target}` move as built by `calculateBestMove`; the target
can be `undefined` (`none`) for a splash chosen with no targets left. -/
structure Move where
  attack : AttackObj
  target : Option GameCharacter
deriving DecidableEq, Repr

/-- The `if (score > bestScore)` update of `calculateBestMove`: replace
the best candidate exactly when the new score is strictly greater
(`none` plays the role of the initial `bestScore = -Infinity`). -/
def updateBest (cur : Option (Move × ℚ)) (cand : Move) (score : ℚ) :
    Option (Move × ℚ) :=
  match cur with
  | none => some (cand, score)
  | some (m, s) => if s < score then some (cand, score) else some (m, s)

/-- The default attack object used to model the unreachable
`attackObjs[0]` fallback of `calculateBestMove` on a character with no
attack options. -/
def defaultAttackObj : AttackObj := ⟨.neutral, .single⟩

/-- The candidate scan of `calculateBestMove` (`battleai.js` lines
105-138): each splash option scored once, each single option scored
against every available target. -/
def bestFold (attacker : GameCharacter) (targets : List GameCharacter) :
    Option (Move × ℚ) :=
  (attacker.getAttackGenes).foldl
    (fun acc attackObj =>
      match attackObj.type with
      | .splash =>
        updateBest acc ⟨attackObj, targets.head?⟩
          (evaluateSplashAttack attacker attackObj targets).score
      | .single =>
        targets.foldl
          (fun acc2 target =>
            updateBest acc2 ⟨attackObj, some target⟩
              (evaluateSingleAttack attacker attackObj target targets).score)
          acc)
    none

/-- The `calculateBestMove` method of `battleai.js`: the maximum-scoring candidate,
with the `bestMove || {attack: attackObjs[0], target: availableTargets[0]}`
fallback. -/
def calculateBestMove (attacker : GameCharacter)
    (availableTargets : List GameCharacter) : Move :=
  match bestFold attacker availableTargets with
  | some (m, _) => m
  | none => ⟨(attacker.getAttackGenes).headD defaultAttackObj, availableTargets.head?⟩

/-- The flat list of the candidates `calculateBestMove` scans, with their
scores, in scan order. -/
def aiCandidates (attacker : GameCharacter) (targets : List GameCharacter) :
    List (Move × ℚ) :=
  (attacker.getAttackGenes).flatMap
    (fun attackObj =>
      match attackObj.type with
      | .splash =>
        [(⟨attackObj, targets.head?⟩,
          (evaluateSplashAttack attacker attackObj targets).score)]
      | .single =>
        targets.map (fun t =>
          (⟨attackObj, some t⟩,
           (evaluateSingleAttack attacker attackObj t targets).score)))

/-- The decision record of `makeDecision`. -/
structure AIDecision where
  success : Bool
  attack : AttackObj
  target : Option GameCharacter
  wasSmartMove : Bool
deriving DecidableEq, Repr

/-- The `makeDecision` method of `battleai.js` (lines 73-97): draw one uniform value
`rand ∈ [0,1)`; below `smartMoveChance` take the heuristic-best move,
otherwise pick an attack option and a target uniformly at random
(`Math.floor(Math.random() × length)` modelled as the supplied index
modulo the length). -/
def makeDecision (cfg : DifficultyConfig) (rand : ℚ) (randAttack randTarget : ℕ)
    (attacker : GameCharacter) (availableTargets : List GameCharacter) : AIDecision :=
  let shouldMakeSmartMove := decide (rand < cfg.smartMoveChance)
  if shouldMakeSmartMove then
    let bestMove := calculateBestMove attacker availableTargets
    ⟨true, bestMove.attack, bestMove.target, true⟩
  else
    let attackObjs := attacker.getAttackGenes
    ⟨true, attackObjs.getD (randAttack % attackObjs.length) defaultAttackObj,
      availableTargets.get? (randTarget % availableTargets.length), false⟩

/-- The number of living members of a team list. -/
def countAlive (l : List GameCharacter) : ℕ := (l.filter (·.isAlive)).length

/-- Concrete attacker used by the C1 witness: a Red character with attack
60 (effectiveness 1.25 against Yellow gives damage 75, the spec's hp=60,
damage=75 example). -/
def wAttackerC1 : GameCharacter :=
  ⟨"Red", [.red], true, ⟨10, 120, 60, 40⟩, true⟩

/-- Concrete target used by the C1 witness: a Yellow character at 60 hp. -/
def wTargetC1 : GameCharacter :=
  ⟨"Yellow", [.yellow], true, ⟨60, 360, 40, 40⟩, false⟩

/-- Concrete scheduler entry for the C5 witness (the Red attacker in the
player team's slot 0). -/
def wSimA : SimChar := ⟨(true, 0), wAttackerC1⟩

/-- Concrete scheduler entry for the C5 witness (the Yellow target in the
enemy team's slot 0). -/
def wSimB : SimChar := ⟨(false, 0), wTargetC1⟩

/-- Concrete combatant list for the C5 witness. -/
def wChars : List SimChar := [wSimA, wSimB]

/-- Concrete action bars for the C5 witness. -/
def wBars : List (CharKey × ℚ) := [(("Red", true), 990), (("Yellow", false), 0)]

/-- Concrete battle state for the C6/C7 witnesses: the Red attacker at the
front of the queue against the Yellow target. -/
def wState : BattleState :=
  { playerTeam := [wAttackerC1], enemyTeam := [wTargetC1],
    upcomingTurns := [(true, 0)], turnQueue := [(true, 0)],
    actionBars := [(("Red", true), 0), (("Yellow", false), 0)],
    battlePhase := .battle, isProcessingTurn := false, turnHistory := [] }

/-- The C6/C7 witness state with a turn already in flight. -/
def wStateBusy : BattleState := { wState with isProcessingTurn := true }

/-- An empty pre-setup battle state (the state of a fresh `BattleSystem`)
for the C8 counterexample. -/
def sFresh : BattleState :=
  { playerTeam := [], enemyTeam := [], upcomingTurns := [], turnQueue := [],
    actionBars := [], battlePhase := .setup, isProcessingTurn := false,
    turnHistory := [] }

/-- A two-element roster (size ≠ 3) for the C8 counterexample. -/
def rosterTwo : List GameCharacter := [wAttackerC1, wTargetC1]

/-- A one-element enemy selection for the C8 counterexample. -/
def enemyOne : List GameCharacter :=
  [⟨"Blue", [.blue], true, ⟨120, 120, 40, 120⟩, false⟩]

/-! # Theorems -/

/-! ## Claim C2: the effectiveness function -/

/-- C2: `getEffectiveness` returns `1.0` whenever the attack gene is
`Neutral`; for a typed attack gene the result is always one of
`{0.5, 0.75, 1.0, 1.25, 1.5}`, determined by the advantage wheel (1.5 one
step forward, 1.25 two steps forward, 0.5 one step backward, 0.75 two
steps backward, 1.0 otherwise — in particular `1.0` on the gene's own
type); and the lookup consults only the defender's first gene. -/
theorem getEffectiveness_spec :
    (∀ c : GameCharacter, GameCharacter.getEffectiveness .neutral c = 1)
    ∧ (∀ (a : Gene) (c : GameCharacter),
        GameCharacter.getEffectiveness (.typed a) c ∈ ({1/2, 3/4, 1, 5/4, 3/2} : Set ℚ))
    ∧ (∀ (a d : Gene) (id : String) (rest : List Gene) (u : Bool) (st : Stats) (ip : Bool),
        GameCharacter.getEffectiveness (.typed a) ⟨id, d :: rest, u, st, ip⟩ =
          if d = wheelNext a then 3/2
          else if d = wheelNext (wheelNext a) then 5/4
          else if a = wheelNext d then 1/2
          else if a = wheelNext (wheelNext d) then 3/4
          else 1)
    ∧ (∀ (g : Gene) (id : String) (rest : List Gene) (u : Bool) (st : Stats) (ip : Bool),
        GameCharacter.getEffectiveness (.typed g) ⟨id, g :: rest, u, st, ip⟩ = 1)
    ∧ (∀ (a : AttackGene) (id id' : String) (g : Gene) (rest rest' : List Gene)
        (u u' : Bool) (st st' : Stats) (ip ip' : Bool),
        GameCharacter.getEffectiveness a ⟨id, g :: rest, u, st, ip⟩ =
          GameCharacter.getEffectiveness a ⟨id', g :: rest', u', st', ip'⟩) := by
  refine ⟨fun c => rfl, ?_, ?_, ?_, ?_⟩
  · intro a c
    rcases c with ⟨id, genes, u, st, ip⟩
    cases genes with
    | nil => simp [GameCharacter.getEffectiveness]
    | cons d rest =>
      cases a <;> cases d <;>
        simp [GameCharacter.getEffectiveness, TYPE_EFFECTIVENESS]
  · intro a d id rest u st ip
    cases a <;> cases d <;>
      simp [GameCharacter.getEffectiveness, TYPE_EFFECTIVENESS, wheelNext]
  · intro g id rest u st ip
    cases g <;> rfl
  · intro a id id' g rest rest' u u' st st' ip ip'
    cases a <;> rfl

/-! ## Claim C1: single-attack resolution -/

/-- C1: for an alive attacker and an alive target, a single attack deals
`attacker.attack × effectiveness(attackGene, target)` damage, sets the
target's hp to `max(0, hp − damage)` (never negative), and reports
`targetDefeated` exactly when the resulting hp is `0`. -/
theorem processSingleAttack_spec (attacker target : GameCharacter) (g : AttackGene)
    (ha : attacker.isAlive = true) (ht : target.isAlive = true) :
    (processSingleAttack attacker g target).1.damage
        = attacker.stats.attack * GameCharacter.getEffectiveness g target
    ∧ (processSingleAttack attacker g target).2.stats.hp
        = max 0 (target.stats.hp - (processSingleAttack attacker g target).1.damage)
    ∧ 0 ≤ (processSingleAttack attacker g target).2.stats.hp
    ∧ ((processSingleAttack attacker g target).1.targetDefeated = true
        ↔ (processSingleAttack attacker g target).2.stats.hp = 0) := by
  refine ⟨rfl, rfl, le_max_left 0 _, ?_⟩
  simp [processSingleAttack, GameCharacter.takeDamage]

/-- Witness for C1 at the concrete input above. -/
theorem processSingleAttack_spec_witness :
    (processSingleAttack wAttackerC1 (.typed .red) wTargetC1).1.damage
        = wAttackerC1.stats.attack * GameCharacter.getEffectiveness (.typed .red) wTargetC1
    ∧ (processSingleAttack wAttackerC1 (.typed .red) wTargetC1).2.stats.hp
        = max 0 (wTargetC1.stats.hp
            - (processSingleAttack wAttackerC1 (.typed .red) wTargetC1).1.damage)
    ∧ 0 ≤ (processSingleAttack wAttackerC1 (.typed .red) wTargetC1).2.stats.hp
    ∧ ((processSingleAttack wAttackerC1 (.typed .red) wTargetC1).1.targetDefeated = true
        ↔ (processSingleAttack wAttackerC1 (.typed .red) wTargetC1).2.stats.hp = 0) :=
  processSingleAttack_spec wAttackerC1 wTargetC1 (.typed .red) (by decide) (by decide)

/-! ## Claim C10: stat-table products are exact integers -/

/-- C10: every attack value in `CHARACTER_STATS` is divisible by 4, and for
a multiple of 4 the product with any of the five effectiveness multipliers
is an exact integer. -/
theorem characterStats_attack_products_integral :
    (∀ e ∈ CHARACTER_STATS, 4 ∣ e.2.2.1)
    ∧ (∀ n : ℕ, 4 ∣ n → ∀ m ∈ effMultipliers, ∃ k : ℤ, (n : ℚ) * m = (k : ℚ)) := by
  constructor
  · decide
  · rintro n ⟨c, rfl⟩ m hm
    simp only [effMultipliers, List.mem_cons, List.mem_singleton] at hm
    rcases hm with rfl | rfl | rfl | rfl | rfl | h
    · exact ⟨2 * c, by push_cast; ring⟩
    · exact ⟨3 * c, by push_cast; ring⟩
    · exact ⟨4 * c, by push_cast; ring⟩
    · exact ⟨5 * c, by push_cast; ring⟩
    · exact ⟨6 * c, by push_cast; ring⟩
    · cases h


/-! ## Action-bar lemmas (shared by the scheduler claims) -/

/-- The `getCharId` keys of a simulation character list. -/
def keysOf (chars : List SimChar) : List CharKey :=
  chars.map (fun c => getCharId c.char)

theorem keysOf_nil : keysOf [] = [] := rfl

theorem keysOf_cons (c : SimChar) (rest : List SimChar) :
    keysOf (c :: rest) = getCharId c.char :: keysOf rest := rfl

theorem foldIncr_nil (f : SimChar → ℚ) (bars : List (CharKey × ℚ)) :
    foldIncr f [] bars = bars := rfl

theorem foldIncr_cons (f : SimChar → ℚ) (c : SimChar) (rest : List SimChar)
    (bars : List (CharKey × ℚ)) :
    foldIncr f (c :: rest) bars
      = foldIncr f rest (barsIncr bars (getCharId c.char) (f c)) := rfl

theorem barsGet_mem {bars : List (CharKey × ℚ)} {k : CharKey} {v : ℚ}
    (h : barsGet bars k = some v) : (k, v) ∈ bars := by
  induction bars with
  | nil => simp [barsGet] at h
  | cons p rest ih =>
    by_cases hp : p.1 = k
    · simp only [barsGet, hp, if_pos] at h
      have : p = (k, v) := by
        cases p with
        | mk a b => simp_all
      simp [this]
    · simp only [barsGet, hp, if_neg, ite_false] at h
      exact List.mem_cons_of_mem _ (ih h)

theorem barsGet_barsIncr (bars : List (CharKey × ℚ)) (k : CharKey) (d : ℚ)
    (k' : CharKey) :
    barsGet (barsIncr bars k d) k' =
      if k' = k then (barsGet bars k').map (· + d) else barsGet bars k' := by
  induction bars with
  | nil => simp [barsIncr, barsGet]
  | cons p rest ih =>
    have step : barsIncr (p :: rest) k d
        = (if p.1 = k then (p.1, p.2 + d) else p) :: barsIncr rest k d := rfl
    rw [step]
    by_cases hp : p.1 = k <;> by_cases hp' : p.1 = k'
    · have hk : k' = k := hp' ▸ hp
      simp [barsGet, hp, hp', hk]
    · have hk : ¬ k' = k := fun e => hp' (e ▸ hp)
      have hk2 : ¬ k = k' := fun e => hk e.symm
      simp [barsGet, hp, hp', hk, hk2, ih]
    · have hk : ¬ k' = k := fun e => hp (hp'.trans e)
      simp [barsGet, hp, hp', hk]
    · simp [barsGet, hp, hp', ih]

theorem barsGet_foldIncr_not_mem (f : SimChar → ℚ) (chars : List SimChar)
    (bars : List (CharKey × ℚ)) (k : CharKey) (h : k ∉ keysOf chars) :
    barsGet (foldIncr f chars bars) k = barsGet bars k := by
  induction chars generalizing bars with
  | nil => rfl
  | cons c rest ih =>
    rw [keysOf_cons, List.mem_cons] at h
    push_neg at h
    rw [foldIncr_cons, ih _ h.2, barsGet_barsIncr, if_neg h.1]

theorem barsGet_foldIncr_mem (f : SimChar → ℚ) (chars : List SimChar)
    (bars : List (CharKey × ℚ)) {c : SimChar}
    (hnd : (keysOf chars).Nodup) (hc : c ∈ chars) :
    barsGet (foldIncr f chars bars) (getCharId c.char)
      = (barsGet bars (getCharId c.char)).map (· + f c) := by
  induction chars generalizing bars with
  | nil => cases hc
  | cons c0 rest ih =>
    rw [keysOf_cons, List.nodup_cons] at hnd
    rcases List.mem_cons.mp hc with rfl | hmem
    · rw [foldIncr_cons, barsGet_foldIncr_not_mem _ _ _ _ hnd.1,
        barsGet_barsIncr, if_pos rfl]
    · have hk : getCharId c.char ≠ getCharId c0.char := by
        intro e
        exact hnd.1 (e ▸ List.mem_map_of_mem (fun x => getCharId x.char) hmem)
      rw [foldIncr_cons, ih _ hnd.2 hmem, barsGet_barsIncr, if_neg hk]

theorem key_unique {chars : List SimChar} (hnd : (keysOf chars).Nodup)
    {c c' : SimChar} (hc : c ∈ chars) (hc' : c' ∈ chars)
    (he : getCharId c.char = getCharId c'.char) : c = c' :=
  List.inj_on_of_nodup_map (by simpa [keysOf] using hnd) hc hc' he

theorem readyOf_sublist (chars : List SimChar) (bars : List (CharKey × ℚ)) :
    (readyOf chars bars).Sublist chars := List.filter_sublist chars

theorem sortReady_perm (bars : List (CharKey × ℚ)) (l : List SimChar) :
    (sortReady bars l).Perm l := List.perm_insertionSort _ l

theorem keysOf_sorted_nodup (chars : List SimChar) (bars bars1 : List (CharKey × ℚ))
    (hnd : (keysOf chars).Nodup) :
    (keysOf (sortReady bars1 (readyOf chars bars))).Nodup := by
  have h1 : (keysOf (readyOf chars bars)).Nodup :=
    hnd.sublist ((readyOf_sublist chars bars).map _)
  exact ((sortReady_perm bars1 _).map _).nodup_iff.mpr h1

theorem mem_sorted_iff_ready (chars : List SimChar) (bars bars1 : List (CharKey × ℚ))
    {c : SimChar} :
    c ∈ sortReady bars1 (readyOf chars bars) ↔ c ∈ readyOf chars bars :=
  (sortReady_perm bars1 _).mem_iff

theorem tick_fst (chars : List SimChar) (bars : List (CharKey × ℚ)) :
    (tick chars bars).1
      = foldIncr (fun _ => -ACTION_THRESHOLD)
          (sortReady (tickIncr chars bars) (readyOf chars (tickIncr chars bars)))
          (tickIncr chars bars) := rfl

theorem tick_snd (chars : List SimChar) (bars : List (CharKey × ℚ)) :
    (tick chars bars).2
      = sortReady (tickIncr chars bars) (readyOf chars (tickIncr chars bars)) := rfl

theorem calcTurnsAux_succ (fuel n : ℕ) (chars : List SimChar)
    (bars : List (CharKey × ℚ)) (acc : List SimChar) :
    calcTurnsAux (fuel + 1) n chars bars acc =
      if acc.length < n then
        calcTurnsAux fuel n chars (tick chars bars).1 (acc ++ (tick chars bars).2)
      else (acc, bars) := rfl

theorem tick_ready_consume (chars : List SimChar) (bars : List (CharKey × ℚ))
    (hnd : (keysOf chars).Nodup) {c : SimChar}
    (hc : c ∈ readyOf chars (tickIncr chars bars)) :
    ∃ v0, barsGet bars (getCharId c.char) = some v0
      ∧ barsGet (tick chars bars).1 (getCharId c.char)
          = some (v0 + c.char.stats.speed - ACTION_THRESHOLD)
      ∧ ACTION_THRESHOLD ≤ v0 + c.char.stats.speed := by
  have hcc : c ∈ chars := (List.mem_filter.mp hc).1
  have hrdy : isReady (tickIncr chars bars) c = true := (List.mem_filter.mp hc).2
  have h1 : barsGet (tickIncr chars bars) (getCharId c.char)
      = (barsGet bars (getCharId c.char)).map (· + c.char.stats.speed) :=
    barsGet_foldIncr_mem _ _ _ hnd hcc
  obtain ⟨v0, hv0⟩ : ∃ v0, barsGet bars (getCharId c.char) = some v0 := by
    rcases hbg : barsGet bars (getCharId c.char) with _ | v0
    · rw [isReady, h1, hbg] at hrdy
      cases hrdy
    · exact ⟨v0, rfl⟩
  have hinc : barsGet (tickIncr chars bars) (getCharId c.char)
      = some (v0 + c.char.stats.speed) := by rw [h1, hv0]; rfl
  have hT : ACTION_THRESHOLD ≤ v0 + c.char.stats.speed := by
    rw [isReady, hinc] at hrdy
    exact of_decide_eq_true hrdy
  have hsorted : c ∈ sortReady (tickIncr chars bars)
      (readyOf chars (tickIncr chars bars)) :=
    (mem_sorted_iff_ready chars (tickIncr chars bars) (tickIncr chars bars)).mpr hc
  have hnd2 := keysOf_sorted_nodup chars (tickIncr chars bars) (tickIncr chars bars) hnd
  have h2 : barsGet (tick chars bars).1 (getCharId c.char)
      = (barsGet (tickIncr chars bars) (getCharId c.char)).map
          (· + -ACTION_THRESHOLD) := by
    rw [tick_fst]
    exact barsGet_foldIncr_mem _ _ _ hnd2 hsorted
  refine ⟨v0, hv0, ?_, hT⟩
  rw [h2, hinc]
  simp [sub_eq_add_neg]

theorem tick_not_ready (chars : List SimChar) (bars : List (CharKey × ℚ))
    (hnd : (keysOf chars).Nodup) {c : SimChar} (hcc : c ∈ chars)
    (hnr : c ∉ readyOf chars (tickIncr chars bars)) :
    barsGet (tick chars bars).1 (getCharId c.char)
      = (barsGet bars (getCharId c.char)).map (· + c.char.stats.speed) := by
  have hkey : getCharId c.char ∉ keysOf (sortReady (tickIncr chars bars)
      (readyOf chars (tickIncr chars bars))) := by
    intro hk
    obtain ⟨c', hc', he⟩ := List.mem_map.mp hk
    have hc'r : c' ∈ readyOf chars (tickIncr chars bars) :=
      (mem_sorted_iff_ready chars (tickIncr chars bars) (tickIncr chars bars)).mp hc'
    have hc'c : c' ∈ chars := (List.mem_filter.mp hc'r).1
    cases key_unique hnd hc'c hcc he
    exact hnr hc'r
  rw [tick_fst, barsGet_foldIncr_not_mem _ _ _ _ hkey]
  exact barsGet_foldIncr_mem _ _ _ hnd hcc

theorem tick_no_char (chars : List SimChar) (bars : List (CharKey × ℚ))
    {k : CharKey} (hk : k ∉ keysOf chars) :
    barsGet (tick chars bars).1 k = barsGet bars k := by
  have h1 : k ∉ keysOf (sortReady (tickIncr chars bars)
      (readyOf chars (tickIncr chars bars))) := by
    intro hmem
    obtain ⟨c', hc', he⟩ := List.mem_map.mp hmem
    have hc'c : c' ∈ chars :=
      (List.mem_filter.mp ((mem_sorted_iff_ready chars (tickIncr chars bars)
        (tickIncr chars bars)).mp hc')).1
    exact hk (he ▸ List.mem_map_of_mem _ hc'c)
  have h2 : barsGet (tickIncr chars bars) k = barsGet bars k :=
    barsGet_foldIncr_not_mem _ _ _ _ hk
  rw [tick_fst, barsGet_foldIncr_not_mem _ _ _ _ h1, h2]

theorem tick_bars_lt (chars : List SimChar) (bars : List (CharKey × ℚ))
    (hnd : (keysOf chars).Nodup)
    (hb : ∀ k v, barsGet bars k = some v → v < ACTION_THRESHOLD)
    (hs : ∀ c ∈ chars, c.char.stats.speed ≤ ACTION_THRESHOLD) :
    ∀ k v, barsGet (tick chars bars).1 k = some v → v < ACTION_THRESHOLD := by
  intro k v hv
  by_cases hk : ∃ c ∈ chars, getCharId c.char = k
  · obtain ⟨c, hc, rfl⟩ := hk
    by_cases hr : c ∈ readyOf chars (tickIncr chars bars)
    · obtain ⟨v0, hv0, hcons, _⟩ := tick_ready_consume chars bars hnd hr
      rw [hcons] at hv
      cases hv
      have h1 := hb _ _ hv0
      have h2 := hs c hc
      linarith
    · rw [tick_not_ready chars bars hnd hc hr] at hv
      obtain ⟨v0, hv0, hsum⟩ := Option.map_eq_some'.mp hv
      have hnotr : isReady (tickIncr chars bars) c = false := by
        rcases hir : isReady (tickIncr chars bars) c with _ | _
        · rfl
        · exact absurd (List.mem_filter.mpr ⟨hc, hir⟩) hr
      have hmap : barsGet (tickIncr chars bars) (getCharId c.char)
          = (barsGet bars (getCharId c.char)).map (· + c.char.stats.speed) :=
        barsGet_foldIncr_mem _ _ _ hnd hc
      have hinc : barsGet (tickIncr chars bars) (getCharId c.char)
          = some (v0 + c.char.stats.speed) := by
        rw [hmap, hv0]; rfl
      rw [isReady, hinc] at hnotr
      have := of_decide_eq_false hnotr
      rw [← hsum]
      linarith [not_le.mp this]
  · push_neg at hk
    have hkk : k ∉ keysOf chars := by
      intro hmem
      obtain ⟨c', hc', he⟩ := List.mem_map.mp hmem
      exact hk c' hc' he
    rw [tick_no_char chars bars hkk] at hv
    exact hb k v hv

theorem calcTurnsAux_bars_lt (chars : List SimChar)
    (hnd : (keysOf chars).Nodup)
    (hs : ∀ c ∈ chars, c.char.stats.speed ≤ ACTION_THRESHOLD) :
    ∀ (fuel n : ℕ) (bars : List (CharKey × ℚ)) (acc : List SimChar),
      (∀ k v, barsGet bars k = some v → v < ACTION_THRESHOLD) →
      ∀ k v, barsGet (calcTurnsAux fuel n chars bars acc).2 k = some v →
        v < ACTION_THRESHOLD := by
  intro fuel
  induction fuel with
  | zero => intro n bars acc hb k v hv; exact hb k v hv
  | succ fuel ih =>
    intro n bars acc hb k v hv
    rw [calcTurnsAux_succ] at hv
    split_ifs at hv with hlen
    · exact ih n _ _ (tick_bars_lt chars bars hnd hb hs) k v hv
    · exact hb k v hv

/-! ## Claim C5: action-bar consumption -/

/-- C5: taking a turn subtracts exactly the threshold (1000) from the
combatant's action-bar value rather than resetting it to 0 (the excess
carries forward), and — when every bar is below the threshold and every
speed is at most the threshold — the value immediately after each
consumption is strictly below `2 × threshold` (indeed below the
threshold, an invariant the simulation loop preserves); `nextTurn`
likewise subtracts exactly one threshold from the acting character's real
action bar. -/
theorem actionBar_consumption_spec (chars : List SimChar)
    (bars : List (CharKey × ℚ))
    (hnd : (keysOf chars).Nodup)
    (hb : ∀ p ∈ bars, p.2 < ACTION_THRESHOLD)
    (hs : ∀ c ∈ chars, c.char.stats.speed ≤ ACTION_THRESHOLD) :
    (∀ c ∈ readyOf chars (tickIncr chars bars),
      ∃ v0, barsGet bars (getCharId c.char) = some v0
        ∧ barsGet (tick chars bars).1 (getCharId c.char)
            = some (v0 + c.char.stats.speed - ACTION_THRESHOLD)
        ∧ v0 + c.char.stats.speed - ACTION_THRESHOLD < 2 * ACTION_THRESHOLD)
    ∧ (∀ k v, barsGet (tick chars bars).1 k = some v → v < ACTION_THRESHOLD)
    ∧ (∀ fuel n acc k v,
        barsGet (calcTurnsAux fuel n chars bars acc).2 k = some v →
          v < ACTION_THRESHOLD)
    ∧ (∀ (fuel : ℕ) (s : BattleState) (r : CharRef) (c : GameCharacter),
        getCurrentCharacter s = some (r, c) →
        barsGet (nextTurn fuel s).actionBars (getCharId c)
          = (barsGet s.actionBars (getCharId c)).map (· - ACTION_THRESHOLD)) := by
  have hb' : ∀ k v, barsGet bars k = some v → v < ACTION_THRESHOLD :=
    fun k v h => hb _ (barsGet_mem h)
  refine ⟨?_, tick_bars_lt chars bars hnd hb' hs,
    fun fuel n acc => calcTurnsAux_bars_lt chars hnd hs fuel n bars acc hb', ?_⟩
  · intro c hc
    obtain ⟨v0, hv0, hcons, _⟩ := tick_ready_consume chars bars hnd hc
    have h1 := hb' _ _ hv0
    have h2 := hs c (List.mem_filter.mp hc).1
    refine ⟨v0, hv0, hcons, ?_⟩
    have hpos : (0 : ℚ) < ACTION_THRESHOLD := by norm_num [ACTION_THRESHOLD]
    linarith
  · intro fuel s r c hcur
    simp only [nextTurn, hcur]
    have hbar : ∀ s2 : BattleState,
        ({ s2 with turnQueue := s2.upcomingTurns.take 6 } : BattleState).actionBars
          = s2.actionBars := fun _ => rfl
    rw [hbar]
    split <;>
    · rw [barsGet_barsIncr, if_pos rfl]
      simp [sub_eq_add_neg]

/-- Witness for C5: two combatants (speeds 40) with bars 990 and 0. -/
theorem actionBar_consumption_spec_witness :
    (∀ c ∈ readyOf wChars (tickIncr wChars wBars),
      ∃ v0, barsGet wBars (getCharId c.char) = some v0
        ∧ barsGet (tick wChars wBars).1 (getCharId c.char)
            = some (v0 + c.char.stats.speed - ACTION_THRESHOLD)
        ∧ v0 + c.char.stats.speed - ACTION_THRESHOLD < 2 * ACTION_THRESHOLD)
    ∧ (∀ k v, barsGet (tick wChars wBars).1 k = some v → v < ACTION_THRESHOLD)
    ∧ (∀ fuel n acc k v,
        barsGet (calcTurnsAux fuel n wChars wBars acc).2 k = some v →
          v < ACTION_THRESHOLD)
    ∧ (∀ (fuel : ℕ) (s : BattleState) (r : CharRef) (c : GameCharacter),
        getCurrentCharacter s = some (r, c) →
        barsGet (nextTurn fuel s).actionBars (getCharId c)
          = (barsGet s.actionBars (getCharId c)).map (· - ACTION_THRESHOLD)) :=
  actionBar_consumption_spec wChars wBars (by decide) (by decide) (by decide)

/-! ## Claim C3: the tie-break ordering -/

theorem turnCmp_bar_lt (bars : List (CharKey × ℚ)) (a b : SimChar)
    (h : (barsGet bars (getCharId b.char)).getD 0
        < (barsGet bars (getCharId a.char)).getD 0) :
    turnCmp bars a b < 0 := by
  simp only [turnCmp]
  rw [if_pos (ne_of_gt h)]
  exact sub_neg.mpr h

theorem turnCmp_speed_lt (bars : List (CharKey × ℚ)) (a b : SimChar)
    (hbar : (barsGet bars (getCharId a.char)).getD 0
        = (barsGet bars (getCharId b.char)).getD 0)
    (h : a.char.stats.speed < b.char.stats.speed) :
    turnCmp bars a b < 0 := by
  simp only [turnCmp]
  rw [if_neg (not_not_intro hbar), if_pos (ne_of_lt h)]
  exact sub_neg.mpr h

theorem turnCmp_player (bars : List (CharKey × ℚ)) (a b : SimChar)
    (hbar : (barsGet bars (getCharId a.char)).getD 0
        = (barsGet bars (getCharId b.char)).getD 0)
    (hsp : a.char.stats.speed = b.char.stats.speed)
    (hpa : a.char.isPlayer = true) (hpb : b.char.isPlayer = false) :
    turnCmp bars a b < 0 := by
  simp only [turnCmp]
  rw [if_neg (not_not_intro hbar), if_neg (not_not_intro hsp),
    if_pos (by rw [hpa, hpb]; exact fun h => Bool.noConfusion h)]
  rw [if_pos hpa]
  norm_num

theorem turnCmp_index (bars : List (CharKey × ℚ)) (a b : SimChar)
    (hbar : (barsGet bars (getCharId a.char)).getD 0
        = (barsGet bars (getCharId b.char)).getD 0)
    (hsp : a.char.stats.speed = b.char.stats.speed)
    (hp : a.char.isPlayer = b.char.isPlayer)
    (h : a.ref.2 < b.ref.2) :
    turnCmp bars a b < 0 := by
  simp only [turnCmp]
  rw [if_neg (not_not_intro hbar), if_neg (not_not_intro hsp),
    if_neg (not_not_intro hp)]
  exact sub_neg.mpr (by exact_mod_cast h)

theorem turnCmp_antisym (bars : List (CharKey × ℚ)) (a b : SimChar) :
    turnCmp bars b a = -turnCmp bars a b := by
  simp only [turnCmp]
  by_cases h1 : (barsGet bars (getCharId a.char)).getD 0
      = (barsGet bars (getCharId b.char)).getD 0
  · rw [if_neg (not_not_intro h1), if_neg (not_not_intro h1.symm)]
    by_cases h2 : a.char.stats.speed = b.char.stats.speed
    · rw [if_neg (not_not_intro h2), if_neg (not_not_intro h2.symm)]
      by_cases h3 : a.char.isPlayer = b.char.isPlayer
      · rw [if_neg (not_not_intro h3), if_neg (not_not_intro h3.symm)]
        ring
      · rw [if_pos h3, if_pos (fun e => h3 e.symm)]
        cases hpa : a.char.isPlayer <;> cases hpb : b.char.isPlayer <;>
          simp_all
    · rw [if_pos h2, if_pos (fun e => h2 e.symm)]
      ring
  · rw [if_pos h1, if_pos (fun e => h1 e.symm)]
    ring

theorem turnCmp_ne_zero (bars : List (CharKey × ℚ)) (a b : SimChar)
    (h : a.char.isPlayer ≠ b.char.isPlayer ∨ a.ref.2 ≠ b.ref.2) :
    turnCmp bars a b ≠ 0 := by
  simp only [turnCmp]
  by_cases h1 : (barsGet bars (getCharId a.char)).getD 0
      = (barsGet bars (getCharId b.char)).getD 0
  · rw [if_neg (not_not_intro h1)]
    by_cases h2 : a.char.stats.speed = b.char.stats.speed
    · rw [if_neg (not_not_intro h2)]
      by_cases h3 : a.char.isPlayer = b.char.isPlayer
      · rw [if_neg (not_not_intro h3)]
        rcases h with hp | hidx
        · exact absurd h3 hp
        · exact sub_ne_zero.mpr (by exact_mod_cast hidx)
      · rw [if_pos h3]
        cases hpa : a.char.isPlayer <;> norm_num
    · rw [if_pos h2]
      exact sub_ne_zero.mpr h2
  · rw [if_pos h1]
    exact sub_ne_zero.mpr (Ne.symm h1)

theorem sortReady_three (bars : List (CharKey × ℚ)) (a b c : SimChar)
    (hab : turnCmp bars a b ≤ 0) (hbc : turnCmp bars b c ≤ 0) :
    sortReady bars [a, b, c] = [a, b, c] := by
  simp [sortReady, List.insertionSort, List.orderedInsert, hab, hbc]

theorem tick_three_scenario (bars : List (CharKey × ℚ)) (ally o1 o2 : SimChar)
    (v s : ℚ)
    (hk1 : getCharId ally.char ≠ getCharId o1.char)
    (hk2 : getCharId ally.char ≠ getCharId o2.char)
    (hk3 : getCharId o1.char ≠ getCharId o2.char)
    (hbA : barsGet bars (getCharId ally.char) = some v)
    (hbB : barsGet bars (getCharId o1.char) = some v)
    (hbC : barsGet bars (getCharId o2.char) = some v)
    (hsA : ally.char.stats.speed = s) (hsB : o1.char.stats.speed = s)
    (hsC : o2.char.stats.speed = s)
    (hpA : ally.char.isPlayer = true) (hpB : o1.char.isPlayer = false)
    (hpC : o2.char.isPlayer = false)
    (hidx : o1.ref.2 < o2.ref.2)
    (hready : ACTION_THRESHOLD ≤ v + s) :
    (tick [ally, o1, o2] bars).2 = [ally, o1, o2] := by
  have hnd : (keysOf [ally, o1, o2]).Nodup := by
    simp [keysOf, keysOf_cons, hk1, hk2, hk3]
  have hmA : ally ∈ [ally, o1, o2] := by simp
  have hmB : o1 ∈ [ally, o1, o2] := by simp
  have hmC : o2 ∈ [ally, o1, o2] := by simp
  have hstep : tickIncr [ally, o1, o2] bars
      = foldIncr (fun x => x.char.stats.speed) [ally, o1, o2] bars := rfl
  have hgA : barsGet (tickIncr [ally, o1, o2] bars) (getCharId ally.char)
      = some (v + s) := by
    rw [hstep, barsGet_foldIncr_mem _ _ _ hnd hmA, hbA, hsA]; rfl
  have hgB : barsGet (tickIncr [ally, o1, o2] bars) (getCharId o1.char)
      = some (v + s) := by
    rw [hstep, barsGet_foldIncr_mem _ _ _ hnd hmB, hbB, hsB]; rfl
  have hgC : barsGet (tickIncr [ally, o1, o2] bars) (getCharId o2.char)
      = some (v + s) := by
    rw [hstep, barsGet_foldIncr_mem _ _ _ hnd hmC, hbC, hsC]; rfl
  have hrA : isReady (tickIncr [ally, o1, o2] bars) ally = true := by
    rw [isReady, hgA]; exact decide_eq_true hready
  have hrB : isReady (tickIncr [ally, o1, o2] bars) o1 = true := by
    rw [isReady, hgB]; exact decide_eq_true hready
  have hrC : isReady (tickIncr [ally, o1, o2] bars) o2 = true := by
    rw [isReady, hgC]; exact decide_eq_true hready
  have hready' : readyOf [ally, o1, o2] (tickIncr [ally, o1, o2] bars)
      = [ally, o1, o2] := by
    simp [readyOf, List.filter_cons, List.filter_nil, hrA, hrB, hrC]
  have hcmp1 : turnCmp (tickIncr [ally, o1, o2] bars) ally o1 ≤ 0 :=
    le_of_lt (turnCmp_player _ _ _ (by rw [hgA, hgB]) (by rw [hsA, hsB]) hpA hpB)
  have hcmp2 : turnCmp (tickIncr [ally, o1, o2] bars) o1 o2 ≤ 0 :=
    le_of_lt (turnCmp_index _ _ _ (by rw [hgB, hgC]) (by rw [hsB, hsC])
      (by rw [hpB, hpC]) hidx)
  rw [tick_snd, hready']
  exact sortReady_three _ _ _ _ hcmp1 hcmp2

/-- C3: the scheduler's same-tick ordering. The tie-break comparator of
`calculateUpcomingTurns` orders ready combatants by higher action-bar
value, then lower base speed, then player (ally) team first, then the
team-array insertion index; it is antisymmetric and never compares two
combatants with distinct (team, index) keys as equal (a total order); and
in a tick where exactly one ally and two opponents are ready with equal
bar values and equal speeds, the produced order is the ally first, then
the opponents in insertion order. -/
theorem turnScheduler_tiebreak_spec :
    (∀ (bars : List (CharKey × ℚ)) (a b : SimChar),
      (barsGet bars (getCharId b.char)).getD 0
          < (barsGet bars (getCharId a.char)).getD 0 →
      turnCmp bars a b < 0)
    ∧ (∀ (bars : List (CharKey × ℚ)) (a b : SimChar),
      (barsGet bars (getCharId a.char)).getD 0
          = (barsGet bars (getCharId b.char)).getD 0 →
      a.char.stats.speed < b.char.stats.speed → turnCmp bars a b < 0)
    ∧ (∀ (bars : List (CharKey × ℚ)) (a b : SimChar),
      (barsGet bars (getCharId a.char)).getD 0
          = (barsGet bars (getCharId b.char)).getD 0 →
      a.char.stats.speed = b.char.stats.speed →
      a.char.isPlayer = true → b.char.isPlayer = false → turnCmp bars a b < 0)
    ∧ (∀ (bars : List (CharKey × ℚ)) (a b : SimChar),
      (barsGet bars (getCharId a.char)).getD 0
          = (barsGet bars (getCharId b.char)).getD 0 →
      a.char.stats.speed = b.char.stats.speed →
      a.char.isPlayer = b.char.isPlayer →
      a.ref.2 < b.ref.2 → turnCmp bars a b < 0)
    ∧ (∀ (bars : List (CharKey × ℚ)) (a b : SimChar),
      turnCmp bars b a = -turnCmp bars a b)
    ∧ (∀ (bars : List (CharKey × ℚ)) (a b : SimChar),
      a.char.isPlayer ≠ b.char.isPlayer ∨ a.ref.2 ≠ b.ref.2 →
      turnCmp bars a b ≠ 0)
    ∧ (∀ (bars : List (CharKey × ℚ)) (ally o1 o2 : SimChar) (v s : ℚ),
      getCharId ally.char ≠ getCharId o1.char →
      getCharId ally.char ≠ getCharId o2.char →
      getCharId o1.char ≠ getCharId o2.char →
      barsGet bars (getCharId ally.char) = some v →
      barsGet bars (getCharId o1.char) = some v →
      barsGet bars (getCharId o2.char) = some v →
      ally.char.stats.speed = s → o1.char.stats.speed = s →
      o2.char.stats.speed = s →
      ally.char.isPlayer = true → o1.char.isPlayer = false →
      o2.char.isPlayer = false →
      o1.ref.2 < o2.ref.2 →
      ACTION_THRESHOLD ≤ v + s →
      (tick [ally, o1, o2] bars).2 = [ally, o1, o2]) :=
  ⟨turnCmp_bar_lt, turnCmp_speed_lt, turnCmp_player, turnCmp_index,
    turnCmp_antisym, turnCmp_ne_zero, tick_three_scenario⟩

/-! ## Claim C7: the turn-in-progress guard -/

/-- C7: calling `processTurn` while a turn is in flight returns the
`'already_processing'` discriminated failure and leaves the battle state
(every combatant's hp, the action bars, the turn queue, the phase)
unchanged. -/
theorem processTurn_busy_rejected (fuel : ℕ) (s : BattleState)
    (attackObj : AttackObj) (tref : CharRef) (h : s.isProcessingTurn = true) :
    processTurn fuel s attackObj tref
      = (⟨false, some .alreadyProcessing, none, false, none⟩, s) := by
  rw [processTurn, if_pos h]

/-- Witness for C7 at a concrete busy state. -/
theorem processTurn_busy_rejected_witness :
    processTurn 0 wStateBusy ⟨.typed .red, .single⟩ (false, 0)
      = (⟨false, some .alreadyProcessing, none, false, none⟩, wStateBusy) :=
  processTurn_busy_rejected 0 wStateBusy ⟨.typed .red, .single⟩ (false, 0) rfl

/-! ## Claim C6: battle end detection -/

theorem countAlive_eq_zero (l : List GameCharacter) :
    countAlive l = 0 ↔ l.any (·.isAlive) = false := by
  simp [countAlive, List.length_eq_zero, List.filter_eq_nil_iff, List.any_eq_false]

theorem countAlive_pos_of_any (l : List GameCharacter)
    (h : l.any (·.isAlive) = true) : 0 < countAlive l := by
  obtain ⟨c, hm, hc⟩ := List.any_eq_true.mp h
  exact List.length_pos_of_mem (List.mem_filter.mpr ⟨hm, hc⟩)

theorem any_isAlive_of_get (l : List GameCharacter) (i : ℕ) (c : GameCharacter)
    (h : l.get? i = some c) (hc : c.isAlive = true) : l.any (·.isAlive) = true :=
  List.any_eq_true.mpr ⟨c, List.get?_mem h, hc⟩

theorem updateTurnQueue_teamOf (fuel : ℕ) (s : BattleState) (w : Bool) :
    teamOf (updateTurnQueue fuel s) w = teamOf s w := by cases w <;> rfl

theorem updateTurnQueue_phase (fuel : ℕ) (s : BattleState) :
    (updateTurnQueue fuel s).battlePhase = s.battlePhase := rfl

theorem setTeam_phase (s : BattleState) (side : Bool) (t : List GameCharacter) :
    (setTeam s side t).battlePhase = s.battlePhase := by
  cases side <;> rfl

theorem teamOf_setTeam_ne (s : BattleState) (side : Bool) (t : List GameCharacter)
    (w : Bool) (h : w ≠ side) : teamOf (setTeam s side t) w = teamOf s w := by
  cases side <;> cases w <;> simp_all [teamOf, setTeam]

theorem checkBattleEnd_playerTeam (s : BattleState) :
    (checkBattleEnd s).2.playerTeam = s.playerTeam := by
  rw [checkBattleEnd]
  split <;> rfl

theorem checkBattleEnd_enemyTeam (s : BattleState) :
    (checkBattleEnd s).2.enemyTeam = s.enemyTeam := by
  rw [checkBattleEnd]
  split <;> rfl

theorem checkBattleEnd_teamOf (s : BattleState) (w : Bool) :
    teamOf (checkBattleEnd s).2 w = teamOf s w := by
  cases w <;>
    simp [teamOf, checkBattleEnd_playerTeam, checkBattleEnd_enemyTeam]

theorem processSingleAttackS_ownTeam (fuel : ℕ) (s : BattleState)
    (attacker : GameCharacter) (g : AttackGene) (tref : CharRef)
    (h : tref.1 = !attacker.isPlayer) :
    teamOf (processSingleAttackS fuel s attacker g tref).2 attacker.isPlayer
      = teamOf s attacker.isPlayer := by
  have hne : attacker.isPlayer ≠ tref.1 := by
    rw [h]; cases attacker.isPlayer <;> simp
  rw [processSingleAttackS]
  rcases hd : deref s tref with _ | target
  · rfl
  · simp only []
    split
    · rw [updateTurnQueue_teamOf, teamOf_setTeam_ne _ _ _ _ hne]
    · rw [teamOf_setTeam_ne _ _ _ _ hne]

theorem processSingleAttackS_phase (fuel : ℕ) (s : BattleState)
    (attacker : GameCharacter) (g : AttackGene) (tref : CharRef) :
    (processSingleAttackS fuel s attacker g tref).2.battlePhase
      = s.battlePhase := by
  rw [processSingleAttackS]
  rcases hd : deref s tref with _ | target
  · rfl
  · simp only []
    split
    · rw [updateTurnQueue_phase, setTeam_phase]
    · rw [setTeam_phase]

theorem processSplashAttackS_ownTeam (fuel : ℕ) (s : BattleState)
    (attacker : GameCharacter) (g : AttackGene) :
    teamOf (processSplashAttackS fuel s attacker g).2 attacker.isPlayer
      = teamOf s attacker.isPlayer := by
  have hne : attacker.isPlayer ≠ !attacker.isPlayer := by
    cases attacker.isPlayer <;> simp
  rw [processSplashAttackS]
  simp only []
  rw [updateTurnQueue_teamOf, teamOf_setTeam_ne _ _ _ _ hne]

theorem processSplashAttackS_phase (fuel : ℕ) (s : BattleState)
    (attacker : GameCharacter) (g : AttackGene) :
    (processSplashAttackS fuel s attacker g).2.battlePhase = s.battlePhase := by
  rw [processSplashAttackS]
  simp only []
  rw [updateTurnQueue_phase, setTeam_phase]

theorem checkBattleEnd_spec (s1 : BattleState) (side : Bool)
    (hphase : s1.battlePhase = .battle)
    (hown : (teamOf s1 side).any (·.isAlive) = true) :
    ((checkBattleEnd s1).1.1 = true
      ↔ countAlive s1.playerTeam = 0 ∨ countAlive s1.enemyTeam = 0)
    ∧ ((checkBattleEnd s1).1.1 = true →
        ∃ w, (checkBattleEnd s1).1.2 = some w
          ∧ 0 < countAlive (teamOf s1 w) ∧ countAlive (teamOf s1 (!w)) = 0)
    ∧ ((checkBattleEnd s1).1.1 = false → (checkBattleEnd s1).1.2 = none)
    ∧ ((checkBattleEnd s1).2.battlePhase = .ended ↔ (checkBattleEnd s1).1.1 = true) := by
  by_cases hp : s1.playerTeam.any (·.isAlive) = true <;>
    by_cases he : s1.enemyTeam.any (·.isAlive) = true
  · have hp0 : ¬ countAlive s1.playerTeam = 0 := by
      simp [countAlive_eq_zero, hp]
    have he0 : ¬ countAlive s1.enemyTeam = 0 := by
      simp [countAlive_eq_zero, he]
    simp [checkBattleEnd, hp, he, hp0, he0, hphase]
  · have he' : s1.enemyTeam.any (·.isAlive) = false := by
      simpa using he
    have he0 : countAlive s1.enemyTeam = 0 := (countAlive_eq_zero _).mpr he'
    refine ⟨by simp [checkBattleEnd, hp, he', he0], ?_, ?_, ?_⟩
    · intro _
      refine ⟨true, ?_, ?_, ?_⟩
      · simp [checkBattleEnd, hp, he']
      · exact countAlive_pos_of_any _ hp
      · simpa [teamOf] using he0
    · intro hcontra
      have : (checkBattleEnd s1).1.1 = true := by simp [checkBattleEnd, hp, he']
      rw [hcontra] at this
      cases this
    · simp [checkBattleEnd, hp, he']
  · have hp' : s1.playerTeam.any (·.isAlive) = false := by
      simpa using hp
    have hp0 : countAlive s1.playerTeam = 0 := (countAlive_eq_zero _).mpr hp'
    refine ⟨by simp [checkBattleEnd, hp', hp0], ?_, ?_, ?_⟩
    · intro _
      refine ⟨false, ?_, ?_, ?_⟩
      · simp [checkBattleEnd, hp']
      · exact countAlive_pos_of_any _ he
      · simpa [teamOf] using hp0
    · intro hcontra
      have : (checkBattleEnd s1).1.1 = true := by simp [checkBattleEnd, hp']
      rw [hcontra] at this
      cases this
    · simp [checkBattleEnd, hp']
  · exfalso
    cases side
    · rw [show teamOf s1 false = s1.enemyTeam from rfl] at hown
      exact he hown
    · rw [show teamOf s1 true = s1.playerTeam from rfl] at hown
      exact hp hown

theorem teamOf_setFlag (s : BattleState) (b : Bool) (w : Bool) :
    teamOf { s with isProcessingTurn := b } w = teamOf s w := by
  cases w <;> rfl

/-- C6: for a successfully processed turn (no turn in flight, a living
current attacker, single attacks aimed at the opposing team), the result
reports the battle as ended with a winner exactly when one team's count
of living members is 0 after the turn — never earlier, never later — the
winner is the side that still has a living member (the other side's count
being 0), no winner is reported otherwise, and the phase moves to
`'ended'` exactly on that branch. -/
theorem processTurn_battleEnd_spec (fuel : ℕ) (s : BattleState)
    (attackObj : AttackObj) (tref : CharRef) (r0 : CharRef)
    (attacker : GameCharacter)
    (hflag : s.isProcessingTurn = false)
    (hphase : s.battlePhase = .battle)
    (hhead : s.upcomingTurns.head? = some r0)
    (hatt : deref s r0 = some attacker)
    (halive : attacker.isAlive = true)
    (hside : r0.1 = attacker.isPlayer)
    (htarget : attackObj.type = .single → tref.1 = !attacker.isPlayer) :
    (processTurn fuel s attackObj tref).1.success = true
    ∧ ((processTurn fuel s attackObj tref).1.battleEnded = true
        ↔ countAlive (processTurn fuel s attackObj tref).2.playerTeam = 0
          ∨ countAlive (processTurn fuel s attackObj tref).2.enemyTeam = 0)
    ∧ ((processTurn fuel s attackObj tref).1.battleEnded = true →
        ∃ w, (processTurn fuel s attackObj tref).1.winner = some w
          ∧ 0 < countAlive (teamOf (processTurn fuel s attackObj tref).2 w)
          ∧ countAlive (teamOf (processTurn fuel s attackObj tref).2 (!w)) = 0)
    ∧ ((processTurn fuel s attackObj tref).1.battleEnded = false →
        (processTurn fuel s attackObj tref).1.winner = none)
    ∧ ((processTurn fuel s attackObj tref).2.battlePhase = .ended
        ↔ (processTurn fuel s attackObj tref).1.battleEnded = true) := by
  have hcur : getCurrentCharacter s = some (r0, attacker) := by
    rcases hut : s.upcomingTurns with _ | ⟨r, rest⟩
    · rw [hut] at hhead; cases hhead
    · rw [hut] at hhead
      simp only [List.head?_cons, Option.some_inj] at hhead
      cases hhead
      simp [getCurrentCharacter, hut, hatt]
  have hfalse : ¬ s.isProcessingTurn = true := by simp [hflag]
  have hget : (teamOf s attacker.isPlayer).get? r0.2 = some attacker := by
    rw [← hside]; exact hatt
  cases hty : attackObj.type with
  | single =>
    have hside' : tref.1 = !attacker.isPlayer := htarget hty
    have hPT : processTurn fuel s attackObj tref
        = (⟨true, none,
            some (.single (processSingleAttackS fuel s attacker attackObj.gene tref).1),
            (checkBattleEnd (processSingleAttackS fuel s attacker attackObj.gene tref).2).1.1,
            (checkBattleEnd (processSingleAttackS fuel s attacker attackObj.gene tref).2).1.2⟩,
          { (checkBattleEnd (processSingleAttackS fuel s attacker attackObj.gene tref).2).2
              with isProcessingTurn := false }) := by
      rw [processTurn, if_neg hfalse]
      simp [hcur, halive, hty]
    set s1 := (processSingleAttackS fuel s attacker attackObj.gene tref).2 with hs1
    have hteam : teamOf s1 attacker.isPlayer = teamOf s attacker.isPlayer :=
      processSingleAttackS_ownTeam fuel s attacker attackObj.gene tref hside'
    have hph1 : s1.battlePhase = .battle := by
      rw [hs1, processSingleAttackS_phase]; exact hphase
    have hany : (teamOf s1 attacker.isPlayer).any (·.isAlive) = true := by
      rw [hteam]; exact any_isAlive_of_get _ r0.2 _ hget halive
    obtain ⟨A, B, C, D⟩ := checkBattleEnd_spec s1 attacker.isPlayer hph1 hany
    rw [hPT]
    refine ⟨rfl, ?_, ?_, fun h => C h, ?_⟩
    · simpa [checkBattleEnd_playerTeam, checkBattleEnd_enemyTeam] using A
    · intro hE
      obtain ⟨w, hw, hpos, hzero⟩ := B hE
      refine ⟨w, hw, ?_, ?_⟩
      · rw [teamOf_setFlag, checkBattleEnd_teamOf]; exact hpos
      · rw [teamOf_setFlag, checkBattleEnd_teamOf]; exact hzero
    · exact D
  | splash =>
    have hPT : processTurn fuel s attackObj tref
        = (⟨true, none,
            some (.splash (processSplashAttackS fuel s attacker attackObj.gene).1),
            (checkBattleEnd (processSplashAttackS fuel s attacker attackObj.gene).2).1.1,
            (checkBattleEnd (processSplashAttackS fuel s attacker attackObj.gene).2).1.2⟩,
          { (checkBattleEnd (processSplashAttackS fuel s attacker attackObj.gene).2).2
              with isProcessingTurn := false }) := by
      rw [processTurn, if_neg hfalse]
      simp [hcur, halive, hty]
    set s1 := (processSplashAttackS fuel s attacker attackObj.gene).2 with hs1
    have hteam : teamOf s1 attacker.isPlayer = teamOf s attacker.isPlayer :=
      processSplashAttackS_ownTeam fuel s attacker attackObj.gene
    have hph1 : s1.battlePhase = .battle := by
      rw [hs1, processSplashAttackS_phase]; exact hphase
    have hany : (teamOf s1 attacker.isPlayer).any (·.isAlive) = true := by
      rw [hteam]; exact any_isAlive_of_get _ r0.2 _ hget halive
    obtain ⟨A, B, C, D⟩ := checkBattleEnd_spec s1 attacker.isPlayer hph1 hany
    rw [hPT]
    refine ⟨rfl, ?_, ?_, fun h => C h, ?_⟩
    · simpa [checkBattleEnd_playerTeam, checkBattleEnd_enemyTeam] using A
    · intro hE
      obtain ⟨w, hw, hpos, hzero⟩ := B hE
      refine ⟨w, hw, ?_, ?_⟩
      · rw [teamOf_setFlag, checkBattleEnd_teamOf]; exact hpos
      · rw [teamOf_setFlag, checkBattleEnd_teamOf]; exact hzero
    · exact D

/-- Witness for C6: the Red attacker strikes the Yellow target in the
concrete one-on-one state. -/
theorem processTurn_battleEnd_spec_witness :
    (processTurn 0 wState ⟨.typed .red, .single⟩ (false, 0)).1.success = true
    ∧ ((processTurn 0 wState ⟨.typed .red, .single⟩ (false, 0)).1.battleEnded = true
        ↔ countAlive (processTurn 0 wState ⟨.typed .red, .single⟩ (false, 0)).2.playerTeam = 0
          ∨ countAlive (processTurn 0 wState ⟨.typed .red, .single⟩ (false, 0)).2.enemyTeam = 0)
    ∧ ((processTurn 0 wState ⟨.typed .red, .single⟩ (false, 0)).1.battleEnded = true →
        ∃ w, (processTurn 0 wState ⟨.typed .red, .single⟩ (false, 0)).1.winner = some w
          ∧ 0 < countAlive (teamOf (processTurn 0 wState ⟨.typed .red, .single⟩ (false, 0)).2 w)
          ∧ countAlive (teamOf (processTurn 0 wState ⟨.typed .red, .single⟩ (false, 0)).2 (!w)) = 0)
    ∧ ((processTurn 0 wState ⟨.typed .red, .single⟩ (false, 0)).1.battleEnded = false →
        (processTurn 0 wState ⟨.typed .red, .single⟩ (false, 0)).1.winner = none)
    ∧ ((processTurn 0 wState ⟨.typed .red, .single⟩ (false, 0)).2.battlePhase = .ended
        ↔ (processTurn 0 wState ⟨.typed .red, .single⟩ (false, 0)).1.battleEnded = true) :=
  processTurn_battleEnd_spec 0 wState ⟨.typed .red, .single⟩ (false, 0) (true, 0)
    wAttackerC1 rfl rfl rfl rfl (by decide) rfl (fun _ => rfl)

/-! ## Claim C8: roster-size validation -/

/-- C8 counterexample: `setupBattle` performs no roster-size validation.
Called with a two-element roster it does not fail (its result has no
failure shape at all): it proceeds, sets the phase to `'battle'` and
mutates the battle state. -/
theorem setupBattle_no_roster_validation :
    rosterTwo.length ≠ 3
    ∧ (setupBattle 0 sFresh rosterTwo enemyOne).2.battlePhase = .battle
    ∧ (setupBattle 0 sFresh rosterTwo enemyOne).2 ≠ sFresh
    ∧ (setupBattle 0 sFresh rosterTwo enemyOne).1.playerTeam.length = 2 := by
  refine ⟨by decide, rfl, ?_, rfl⟩
  intro h
  have hph := congrArg BattleState.battlePhase h
  rw [show (setupBattle 0 sFresh rosterTwo enemyOne).2.battlePhase
      = BattlePhase.battle from rfl] at hph
  rw [show sFresh.battlePhase = BattlePhase.setup from rfl] at hph
  cases hph

/-- C8 (amended): `setupBattle` accepts a roster of any size — it clones
the whole roster as the player team, transitions the phase to `'battle'`
and resets the processing flag; no `InvalidRosterSize` failure exists in
the code (the size-3 guard lives only in the UI caller, which returns
without invoking `setupBattle`). -/
theorem setupBattle_accepts_any_roster (fuel : ℕ) (s : BattleState)
    (roster enemy : List GameCharacter) :
    (setupBattle fuel s roster enemy).2.battlePhase = .battle
    ∧ (setupBattle fuel s roster enemy).1.playerTeam.length = roster.length
    ∧ (setupBattle fuel s roster enemy).2.playerTeam.length = roster.length
    ∧ (setupBattle fuel s roster enemy).2.isProcessingTurn = false := by
  refine ⟨rfl, ?_, ?_, rfl⟩ <;> simp [setupBattle]

/-! ## Claim C4: splash attacks -/

theorem countAlive_cons_alive {c : GameCharacter} (l : List GameCharacter)
    (hc : c.isAlive = true) : countAlive (c :: l) = countAlive l + 1 := by
  simp [countAlive, List.filter_cons, hc]

theorem countAlive_cons_dead {c : GameCharacter} (l : List GameCharacter)
    (hc : ¬ c.isAlive = true) : countAlive (c :: l) = countAlive l := by
  simp [countAlive, List.filter_cons, hc]

theorem splashHits_results (attacker : GameCharacter) (g : AttackGene) :
    ∀ (k : ℕ) (team : List GameCharacter),
      (splashHits attacker g k team).2
        = ((team.filter (·.isAlive)).take k).map (fun t =>
            ⟨t.id, attacker.calculateDamage g t * SPLASH_DAMAGE_MULTIPLIER,
             GameCharacter.getEffectiveness g t,
             (t.takeDamage (attacker.calculateDamage g t
                * SPLASH_DAMAGE_MULTIPLIER)).2⟩) := by
  intro k team
  induction team generalizing k with
  | nil => simp [splashHits]
  | cons c rest ih =>
    by_cases hc : c.isAlive = true
    · cases k with
      | zero => simp [splashHits, hc, ih, List.filter_cons]
      | succ k => simp [splashHits, hc, ih, List.filter_cons, List.take_succ_cons]
    · simp [splashHits, hc, ih, List.filter_cons]

theorem countAlive_nil : countAlive [] = 0 := rfl

theorem splashHits_get (attacker : GameCharacter) (g : AttackGene) :
    ∀ (k : ℕ) (team : List GameCharacter) (i : ℕ),
      (splashHits attacker g k team).1.get? i
        = (team.get? i).map (fun c =>
            if c.isAlive = true ∧ countAlive (team.take i) < k
            then (c.takeDamage (attacker.calculateDamage g c
                    * SPLASH_DAMAGE_MULTIPLIER)).1
            else c) := by
  intro k team
  induction team generalizing k with
  | nil => intro i; simp [splashHits]
  | cons c rest ih =>
    intro i
    by_cases hc : c.isAlive = true
    · cases k with
      | zero =>
        cases i with
        | zero => simp [splashHits, hc]
        | succ i => simpa [splashHits, hc] using ih 0 i
      | succ k =>
        cases i with
        | zero => simp [splashHits, hc, countAlive_nil]
        | succ i =>
          simpa [splashHits, hc, List.take_succ_cons,
            countAlive_cons_alive _ hc, Nat.succ_lt_succ_iff] using ih k i
    · cases i with
      | zero => simp [splashHits, hc]
      | succ i =>
        simpa [splashHits, hc, List.take_succ_cons,
          countAlive_cons_dead _ hc] using ih k i

theorem teamOf_setTeam_same (s : BattleState) (side : Bool)
    (t : List GameCharacter) : teamOf (setTeam s side t) side = t := by
  cases side <;> rfl

/-- C4: a splash attack hits at most 3 targets; the result lines are
exactly the first (up to) 3 living members of the team opposite the
attacker, each for `singleDamage × 0.5`; the attacker's own team is
untouched; each opposing slot is updated by `takeDamage` exactly when it
holds one of those first 3 living members, with the usual
`max(0, hp − damage)` update; and with attack 120 and effectiveness 1.25
the per-target damage is exactly 75. -/
theorem processSplashAttack_spec (fuel : ℕ) (s : BattleState)
    (attacker : GameCharacter) (g : AttackGene) :
    ((processSplashAttackS fuel s attacker g).1.targets.length ≤ 3)
    ∧ ((processSplashAttackS fuel s attacker g).1.targets
        = (((teamOf s (!attacker.isPlayer)).filter (·.isAlive)).take 3).map
            (fun t =>
              ⟨t.id, attacker.calculateDamage g t * SPLASH_DAMAGE_MULTIPLIER,
               GameCharacter.getEffectiveness g t,
               (t.takeDamage (attacker.calculateDamage g t
                  * SPLASH_DAMAGE_MULTIPLIER)).2⟩))
    ∧ (teamOf (processSplashAttackS fuel s attacker g).2 attacker.isPlayer
        = teamOf s attacker.isPlayer)
    ∧ (∀ i, (teamOf (processSplashAttackS fuel s attacker g).2
          (!attacker.isPlayer)).get? i
        = ((teamOf s (!attacker.isPlayer)).get? i).map (fun c =>
            if c.isAlive = true
                ∧ countAlive ((teamOf s (!attacker.isPlayer)).take i) < 3
            then (c.takeDamage (attacker.calculateDamage g c
                    * SPLASH_DAMAGE_MULTIPLIER)).1
            else c))
    ∧ (∀ (c : GameCharacter) (dmg : ℚ),
        (c.takeDamage dmg).1.stats.hp = max 0 (c.stats.hp - dmg))
    ∧ (∀ t : GameCharacter, attacker.stats.attack = 120 →
        GameCharacter.getEffectiveness g t = 5/4 →
        attacker.calculateDamage g t * SPLASH_DAMAGE_MULTIPLIER = 75) := by
  have hres : (processSplashAttackS fuel s attacker g).1.targets
      = (splashHits attacker g 3 (teamOf s (!attacker.isPlayer))).2 := rfl
  refine ⟨?_, ?_, processSplashAttackS_ownTeam fuel s attacker g, ?_, ?_, ?_⟩
  · rw [hres, splashHits_results]
    exact le_trans (le_of_eq (List.length_map _ _)) (List.length_take_le _ _)
  · rw [hres, splashHits_results]
  · intro i
    have hteam : teamOf (processSplashAttackS fuel s attacker g).2
        (!attacker.isPlayer)
        = (splashHits attacker g 3 (teamOf s (!attacker.isPlayer))).1 := by
      rw [show (processSplashAttackS fuel s attacker g).2
          = updateTurnQueue fuel (setTeam s (!attacker.isPlayer)
              (splashHits attacker g 3 (teamOf s (!attacker.isPlayer))).1) from rfl,
        updateTurnQueue_teamOf, teamOf_setTeam_same]
    rw [hteam, splashHits_get]
  · intro c dmg; rfl
  · intro t h1 h2
    rw [GameCharacter.calculateDamage, h1, h2]
    norm_num [SPLASH_DAMAGE_MULTIPLIER]

/-! ## Claim C9: the AI heuristic-best move -/

theorem updateBest_cases (init : Option (Move × ℚ)) (cand : Move) (score : ℚ) :
    ∃ m1 s1, updateBest init cand score = some (m1, s1)
      ∧ score ≤ s1
      ∧ ((m1, s1) = (cand, score) ∨ init = some (m1, s1))
      ∧ (∀ mi si, init = some (mi, si) → si ≤ s1) := by
  cases init with
  | none => exact ⟨cand, score, rfl, le_refl _, Or.inl rfl, by simp⟩
  | some q =>
    obtain ⟨m0, s0⟩ := q
    by_cases h : s0 < score
    · refine ⟨cand, score, ?_, le_refl _, Or.inl rfl, ?_⟩
      · simp [updateBest, h]
      · intro mi si hi
        injection hi with hi'
        cases hi'
        exact h.le
    · refine ⟨m0, s0, ?_, not_lt.mp h, Or.inr rfl, ?_⟩
      · simp [updateBest, h]
      · intro mi si hi
        injection hi with hi'
        cases hi'
        exact le_refl _

theorem foldl_updateBest_some {cs : List (Move × ℚ)} {init : Option (Move × ℚ)}
    {m : Move} {sc : ℚ}
    (h : cs.foldl (fun acc p => updateBest acc p.1 p.2) init = some (m, sc)) :
    ((m, sc) ∈ cs ∨ init = some (m, sc))
    ∧ (∀ p ∈ cs, p.2 ≤ sc)
    ∧ (∀ mi si, init = some (mi, si) → si ≤ sc) := by
  induction cs generalizing init with
  | nil =>
    simp only [List.foldl_nil] at h
    refine ⟨Or.inr h, by simp, fun mi si hi => ?_⟩
    rw [hi] at h
    injection h with h'
    cases h'
    exact le_refl _
  | cons p rest ih =>
    rw [List.foldl_cons] at h
    obtain ⟨hmem, hall, hinit⟩ := ih h
    obtain ⟨m1, s1, hub, hle, hdisj, hinit'⟩ := updateBest_cases init p.1 p.2
    have hs1 : s1 ≤ sc := hinit m1 s1 hub
    refine ⟨?_, ?_, ?_⟩
    · rcases hmem with hmem | hini
      · exact Or.inl (List.mem_cons_of_mem _ hmem)
      · rw [hub] at hini
        have hms : (m1, s1) = (m, sc) := Option.some.inj hini
        rcases hdisj with hcand | hold
        · left
          rw [← hms, hcand]
          exact List.mem_cons_self _ _
        · right
          rw [hold, hms]
    · intro q hq
      rcases List.mem_cons.mp hq with rfl | hq'
      · exact le_trans hle hs1
      · exact hall q hq'
    · intro mi si hi
      exact le_trans (hinit' mi si hi) hs1

theorem foldl_updateBest_some_ne_none (cs : List (Move × ℚ)) :
    ∀ q : Move × ℚ,
      cs.foldl (fun acc p => updateBest acc p.1 p.2) (some q) ≠ none := by
  induction cs with
  | nil => intro q h; cases h
  | cons p rest ih =>
    intro q
    rw [List.foldl_cons]
    obtain ⟨m1, s1, hub, _, _, _⟩ := updateBest_cases (some q) p.1 p.2
    rw [hub]
    exact ih (m1, s1)

theorem foldl_updateBest_eq_none {cs : List (Move × ℚ)}
    {init : Option (Move × ℚ)}
    (h : cs.foldl (fun acc p => updateBest acc p.1 p.2) init = none) :
    cs = [] ∧ init = none := by
  cases cs with
  | nil => exact ⟨rfl, h⟩
  | cons p rest =>
    rw [List.foldl_cons] at h
    obtain ⟨m1, s1, hub, _, _, _⟩ := updateBest_cases init p.1 p.2
    rw [hub] at h
    exact absurd h (foldl_updateBest_some_ne_none rest (m1, s1))

theorem bestFold_eq (attacker : GameCharacter) (targets : List GameCharacter) :
    bestFold attacker targets
      = (aiCandidates attacker targets).foldl
          (fun acc p => updateBest acc p.1 p.2) none := by
  rw [bestFold, aiCandidates]
  suffices h : ∀ (opts : List AttackObj) (init : Option (Move × ℚ)),
      opts.foldl
        (fun acc attackObj =>
          match attackObj.type with
          | .splash =>
            updateBest acc ⟨attackObj, targets.head?⟩
              (evaluateSplashAttack attacker attackObj targets).score
          | .single =>
            targets.foldl
              (fun acc2 target =>
                updateBest acc2 ⟨attackObj, some target⟩
                  (evaluateSingleAttack attacker attackObj target targets).score)
              acc)
        init
      = (opts.flatMap
          (fun attackObj =>
            match attackObj.type with
            | .splash =>
              [(⟨attackObj, targets.head?⟩,
                (evaluateSplashAttack attacker attackObj targets).score)]
            | .single =>
              targets.map (fun t =>
                (⟨attackObj, some t⟩,
                 (evaluateSingleAttack attacker attackObj t targets).score)))).foldl
          (fun acc p => updateBest acc p.1 p.2) init from
    h (attacker.getAttackGenes) none
  intro opts
  induction opts with
  | nil => intro init; rfl
  | cons o rest ih =>
    intro init
    rw [List.foldl_cons, List.flatMap_cons, List.foldl_append, ih]
    rcases o with ⟨og, oty⟩
    cases oty
    · rw [List.foldl_map]
    · rfl

theorem aiCandidates_ne_nil (attacker : GameCharacter)
    (targets : List GameCharacter)
    (hg : attacker.genes ≠ []) (ht : targets ≠ []) :
    aiCandidates attacker targets ≠ [] := by
  rw [aiCandidates]
  rcases hgs : attacker.genes with _ | ⟨g1, _ | ⟨g2, rest⟩⟩
  · exact absurd hgs hg
  · simp [GameCharacter.getAttackGenes, hgs, ht]
  · by_cases he : g1 = g2 <;>
      simp [GameCharacter.getAttackGenes, hgs, he, ht]

/-- C9: at Extreme difficulty (`smartMoveChance = 1`) every draw of the
random value in `[0, 1)` takes the smart-move branch, the decision is the
move of `calculateBestMove`, that move is one of the scanned candidates
(every `(single option, target)` pair and every splash option once) and
its score is maximal among them; and the single-attack score is exactly
damage `+ 500` if lethal `+ 100` if the target's hp is within 1.5× the
attacker's attack `+ 50×effectiveness` when effectiveness ≥ 1.25 (`−25`
when ≤ 0.75) `+ threatScore` `+ 75` when the target is below half health
and its attack exceeds 0.8× the attacker's. -/
theorem makeDecision_extreme_spec (attacker : GameCharacter)
    (targets : List GameCharacter) (rand : ℚ) (randA randT : ℕ)
    (hg : attacker.genes ≠ []) (ht : targets ≠ [])
    (h0 : 0 ≤ rand) (h1 : rand < 1) :
    (makeDecision AI_DIFFICULTY_EXTREME rand randA randT attacker targets).wasSmartMove
        = true
    ∧ (makeDecision AI_DIFFICULTY_EXTREME rand randA randT attacker targets).attack
        = (calculateBestMove attacker targets).attack
    ∧ (makeDecision AI_DIFFICULTY_EXTREME rand randA randT attacker targets).target
        = (calculateBestMove attacker targets).target
    ∧ (∃ sc,
        (⟨(calculateBestMove attacker targets).attack,
          (calculateBestMove attacker targets).target⟩, sc)
            ∈ aiCandidates attacker targets
        ∧ ∀ p ∈ aiCandidates attacker targets, p.2 ≤ sc)
    ∧ (∀ (attackObj : AttackObj) (t : GameCharacter),
        (evaluateSingleAttack attacker attackObj t targets).score
          = attacker.calculateDamage attackObj.gene t
            + (if attacker.calculateDamage attackObj.gene t ≥ t.stats.hp
               then 500 else 0)
            + (if t.stats.hp ≤ attacker.stats.attack * (3/2) then 100 else 0)
            + (if GameCharacter.getEffectiveness attackObj.gene t ≥ 5/4
               then 50 * GameCharacter.getEffectiveness attackObj.gene t
               else if GameCharacter.getEffectiveness attackObj.gene t ≤ 3/4
                 then -25 else 0)
            + calculateThreatLevel t targets
            + (if t.getHealthPercentage < 50
                  ∧ t.stats.attack > attacker.stats.attack * (8/10)
               then 75 else 0)) := by
  have hdec : decide (rand < AI_DIFFICULTY_EXTREME.smartMoveChance) = true :=
    decide_eq_true h1
  have hred : makeDecision AI_DIFFICULTY_EXTREME rand randA randT attacker targets
      = ⟨true, (calculateBestMove attacker targets).attack,
          (calculateBestMove attacker targets).target, true⟩ := by
    rw [makeDecision]
    simp [hdec]
  refine ⟨by rw [hred], by rw [hred], by rw [hred], ?_, ?_⟩
  · have hne := aiCandidates_ne_nil attacker targets hg ht
    rcases hbf : bestFold attacker targets with _ | ⟨m, sc⟩
    · rw [bestFold_eq] at hbf
      exact absurd (foldl_updateBest_eq_none hbf).1 hne
    · have hfold : (aiCandidates attacker targets).foldl
          (fun acc p => updateBest acc p.1 p.2) none = some (m, sc) := by
        rw [← bestFold_eq]; exact hbf
      obtain ⟨hmem, hall, _⟩ := foldl_updateBest_some hfold
      have hmem' : (m, sc) ∈ aiCandidates attacker targets := by
        rcases hmem with h | h
        · exact h
        · cases h
      have hbm : calculateBestMove attacker targets = m := by
        rw [calculateBestMove, hbf]
      refine ⟨sc, ?_, hall⟩
      rw [hbm]
      exact hmem'
  · intro attackObj t
    simp only [evaluateSingleAttack]
    split_ifs <;> ring

/-- Witness for C9 at the concrete Red attacker against the Yellow
target with the random draw 0. -/
theorem makeDecision_extreme_spec_witness :
    (makeDecision AI_DIFFICULTY_EXTREME 0 0 0 wAttackerC1 [wTargetC1]).wasSmartMove
        = true
    ∧ (makeDecision AI_DIFFICULTY_EXTREME 0 0 0 wAttackerC1 [wTargetC1]).attack
        = (calculateBestMove wAttackerC1 [wTargetC1]).attack
    ∧ (makeDecision AI_DIFFICULTY_EXTREME 0 0 0 wAttackerC1 [wTargetC1]).target
        = (calculateBestMove wAttackerC1 [wTargetC1]).target
    ∧ (∃ sc,
        (⟨(calculateBestMove wAttackerC1 [wTargetC1]).attack,
          (calculateBestMove wAttackerC1 [wTargetC1]).target⟩, sc)
            ∈ aiCandidates wAttackerC1 [wTargetC1]
        ∧ ∀ p ∈ aiCandidates wAttackerC1 [wTargetC1], p.2 ≤ sc)
    ∧ (∀ (attackObj : AttackObj) (t : GameCharacter),
        (evaluateSingleAttack wAttackerC1 attackObj t [wTargetC1]).score
          = wAttackerC1.calculateDamage attackObj.gene t
            + (if wAttackerC1.calculateDamage attackObj.gene t ≥ t.stats.hp
               then 500 else 0)
            + (if t.stats.hp ≤ wAttackerC1.stats.attack * (3/2) then 100 else 0)
            + (if GameCharacter.getEffectiveness attackObj.gene t ≥ 5/4
               then 50 * GameCharacter.getEffectiveness attackObj.gene t
               else if GameCharacter.getEffectiveness attackObj.gene t ≤ 3/4
                 then -25 else 0)
            + calculateThreatLevel t [wTargetC1]
            + (if t.getHealthPercentage < 50
                  ∧ t.stats.attack > wAttackerC1.stats.attack * (8/10)
               then 75 else 0)) :=
  makeDecision_extreme_spec wAttackerC1 [wTargetC1] 0 0 0 (by decide) (by decide)
    (by decide) (by decide)
